import Mathlib

/-
  Verification of the TimeTableConverting substitute-assignment pipeline.

  The Lean definitions below are a shallow embedding of the Python sources:
    * src/timetable/substitute.py   (scoring engine)
    * src/utils/report_parser.py    (report parsing, name matching, diffing)
    * src/utils/sheet_utils.py      (pending-assignment lifecycle store)
    * src/web/webhook.py            (report-processing control flow)

  Python dictionaries that are only read through `.get` are embedded as
  functions with the corresponding default; dictionaries whose iteration
  order matters (the teacher name map) are embedded as association lists in
  insertion order.  Python floats only ever hold sums of halves here, so
  scores are embedded as `Rat`.  Python `in`/truthiness tests are embedded
  as boolean `List.contains` / `== ""` tests, which agree with propositional
  membership and equality by lawfulness of `BEq String`.  `random.choice` is
  embedded as an explicit selection function `pick`; every theorem that
  depends on it either quantifies over `pick` or instantiates it on
  singleton candidate lists, where any choice function returns the same
  teacher.
-/

namespace TTC

/-- A timetable / substitute-log row as consumed by `substitute.py`.
All call sites access `teacher_id`, `day_id`, `period_id`; timetable rows
additionally carry `subject_id` and `class_id`, and the records produced by
`assign_substitutes_for_day` carry `substitute_teacher` as a separate field
(`None` embedded as `none`). -/
structure Row where
  teacher_id : String
  subject_id : String
  day_id : String
  period_id : Int
  class_id : String
  substitute_teacher : Option String := none

deriving instance DecidableEq, Repr for Row

/-- Python truthiness of `substitute if substitute else None`:
`None` and the empty string are falsy. -/
def pyOptStr (s : Option String) : Option String :=
  match s with
  | some v => if v == "" then none else some v
  | none => none

/-- `is_available` from `find_best_substitute_teacher`: the teacher is free
at `(day_id, period_id)` if no row of `timetables + substitute_logs` lists
them (by `teacher_id`) at that day and period. -/
def is_available (day_id : String) (period_id : Int)
    (timetables substitute_logs : List Row) (teacher_id : String) : Bool :=
  !((timetables ++ substitute_logs).any (fun row =>
      row.teacher_id == teacher_id && row.day_id == day_id &&
        row.period_id == period_id))

/-- The fixed last-resort exclusion list of `calculate_score`. -/
def last_resort_teachers : List String := ["T006", "T010", "T018"]

/-- `calculate_score` from `find_best_substitute_teacher` (substitute.py,
lines 70-125), with the sequential score accumulation written as one sum. -/
def calculate_score (subject_id day_id : String) (class_id : String)
    (timetables : List Row) (teacher_subjects : String → List String)
    (substitute_logs : List Row) (absent_teacher_ids : List String)
    (leave_logs : List Row) (teacher_levels : String → List String)
    (class_levels : String → Option String) (teacher_id : String) : Rat :=
  if absent_teacher_ids.contains teacher_id then -999
  else
    (if last_resort_teachers.contains teacher_id then (-50 : Rat) else 0)
    + (if (teacher_subjects teacher_id).contains subject_id then (2 : Rat) else 0)
    + (match class_levels class_id with
       | some lv => if (teacher_levels teacher_id).contains lv then (5 : Rat) else -2
       | none => (-2 : Rat))
    - 2 * ((timetables.filter (fun row =>
        row.teacher_id == teacher_id && row.day_id == day_id)).length : Rat)
    - ((substitute_logs.filter (fun row =>
        row.teacher_id == teacher_id)).length : Rat)
    - (1/2) * ((timetables.filter (fun row =>
        row.teacher_id == teacher_id &&
          !(leave_logs.any (fun l =>
            l.teacher_id == teacher_id && l.day_id == row.day_id)))).length : Rat)

/-- `find_best_substitute_teacher` (substitute.py, lines 4-143).
Raising `ValueError` is embedded as `Except.error`; the `None`-argument
checks of the source have no counterpart because the embedded lists are
never `None`.  `random.choice` over the tied top candidates is the
injected `pick`. -/
def find_best_substitute_teacher (subject_id day_id : String) (period_id : Int)
    (class_id : String) (timetables : List Row)
    (teacher_subjects : String → List String) (substitute_logs : List Row)
    (all_teacher_ids absent_teacher_ids : List String) (leave_logs : List Row)
    (teacher_levels : String → List String)
    (class_levels : String → Option String)
    (pick : List String → String) : Except String (Option String) :=
  if subject_id == "" || day_id == "" || class_id == "" then
    .error "subject_id, day_id, and class_id are required"
  else if period_id < 1 then
    .error "period_id must be >= 1"
  else
    let score := calculate_score subject_id day_id class_id timetables
      teacher_subjects substitute_logs absent_teacher_ids leave_logs
      teacher_levels class_levels
    let candidates := (all_teacher_ids.filter (fun t =>
        is_available day_id period_id timetables substitute_logs t)).filterMap
      (fun t => if score t > -999 then some (t, score t) else none)
    match candidates with
    | [] => .ok none
    | c :: cs =>
      let max_score := cs.foldl (fun m x => max m x.2) c.2
      let top_candidates :=
        ((c :: cs).filter (fun x => decide (x.2 = max_score))).map Prod.fst
      .ok (some (pick top_candidates))

/-- The loop body accumulation of `assign_substitutes_for_day`
(substitute.py, lines 178-213): processes the remaining timetable rows,
carrying the `new_substitutes` accumulator that is appended to
`substitute_logs` for later periods of the same run.  Each emitted record
stores the ABSENT teacher under `teacher_id` and the chosen substitute under
`substitute_teacher`, exactly as the source does. -/
def assignAux (day_id : String) (timetable : List Row)
    (teacher_subjects : String → List String) (substitute_logs : List Row)
    (all_teacher_ids absent_teacher_ids : List String) (leave_logs : List Row)
    (teacher_levels : String → List String)
    (class_levels : String → Option String) (pick : List String → String) :
    List Row → List Row → Except String (List Row)
  | [], acc => .ok acc
  | row :: rest, acc =>
    if row.day_id == day_id && absent_teacher_ids.contains row.teacher_id then
      match find_best_substitute_teacher row.subject_id day_id row.period_id
          row.class_id timetable teacher_subjects (substitute_logs ++ acc)
          all_teacher_ids absent_teacher_ids leave_logs teacher_levels
          class_levels pick with
      | .error e => .error e
      | .ok substitute =>
        assignAux day_id timetable teacher_subjects substitute_logs
          all_teacher_ids absent_teacher_ids leave_logs teacher_levels
          class_levels pick rest
          (acc ++ [{ teacher_id := row.teacher_id, subject_id := row.subject_id,
                     day_id := day_id, period_id := row.period_id,
                     class_id := row.class_id,
                     substitute_teacher := pyOptStr substitute }])
    else
      assignAux day_id timetable teacher_subjects substitute_logs
        all_teacher_ids absent_teacher_ids leave_logs teacher_levels
        class_levels pick rest acc

/-- `assign_substitutes_for_day` (substitute.py, lines 146-213). -/
def assign_substitutes_for_day (day_id : String) (timetable : List Row)
    (teacher_subjects : String → List String) (substitute_logs : List Row)
    (all_teacher_ids absent_teacher_ids : List String) (leave_logs : List Row)
    (teacher_levels : String → List String)
    (class_levels : String → Option String)
    (pick : List String → String) : Except String (List Row) :=
  assignAux day_id timetable teacher_subjects substitute_logs all_teacher_ids
    absent_teacher_ids leave_logs teacher_levels class_levels pick timetable []

/-- The per-record correspondence of C3: each output record copies the
identifying fields of the timetable entry it was emitted for. -/
def recordsEntry (day_id : String) (src rec : Row) : Prop :=
  rec.teacher_id = src.teacher_id ∧ rec.subject_id = src.subject_id ∧
    rec.day_id = day_id ∧ rec.period_id = src.period_id ∧
    rec.class_id = src.class_id

/-- One data row of the Pending_Assignments worksheet, in its column order
(Date, Absent_Teacher, Day, Period, Class_ID, Subject, Substitute_Teacher,
Notes, Created_At, Processed_At, Status).  Cells are strings, as in
`get_all_values`; `Period` holds the text written by `str(period)`. -/
structure PRow where
  date : String
  absent_teacher : String
  day : String
  period : String
  class_id : String
  subject : String
  substitute_teacher : String
  notes : String
  created_at : String
  processed_at : String
  status : String

deriving instance DecidableEq, Repr for PRow

/-- One data row of the Leave_Logs worksheet (Date, Absent_Teacher, Day,
Period, Class_ID, Subject, Substitute_Teacher, Notes, Verified_By,
Verified_At), as appended by `add_absence`. -/
structure LRow where
  date : String
  absent_teacher : String
  day : String
  period : String
  class_id : String
  subject : String
  substitute_teacher : String
  notes : String
  verified_by : String
  verified_at : String

deriving instance DecidableEq, Repr for LRow

/-- The row appended by `add_pending_assignment` (sheet_utils.py, lines
357-371): `created_at` is the `datetime.now()` timestamp, passed in
explicitly here, and the status is always "pending". -/
def mk_pending_row (date absent_teacher day : String) (period : Int)
    (class_id subject substitute_teacher notes created_at processed_at :
      String) : PRow :=
  ⟨date, absent_teacher, day, toString period, class_id, subject,
   substitute_teacher, notes, created_at, processed_at, "pending"⟩

/-- `add_pending_assignment` (sheet_utils.py, lines 307-381): appends one
pending row to the worksheet. -/
def add_pending_assignment (sheet : List PRow) (date absent_teacher day :
    String) (period : Int) (class_id subject substitute_teacher notes
    created_at processed_at : String) : List PRow :=
  sheet ++ [mk_pending_row date absent_teacher day period class_id subject
    substitute_teacher notes created_at processed_at]

/-- `load_pending_assignments` (sheet_utils.py, lines 384-420): all rows of
the worksheet whose Date is the target date and whose Status is pending. -/
def load_pending_assignments (sheet : List PRow) (target_date : String) :
    List PRow :=
  sheet.filter (fun r => r.date == target_date && r.status == "pending")

/-- `delete_pending_assignments` (sheet_utils.py, lines 423-468).  The
source collects the indices of the (date, pending) rows and deletes them in
reverse order; the net effect embedded here is that exactly those rows are
removed and their number returned. -/
def delete_pending_assignments (sheet : List PRow) (target_date : String) :
    List PRow × Nat :=
  (sheet.filter (fun r => !(r.date == target_date && r.status == "pending")),
   (sheet.filter (fun r => r.date == target_date && r.status == "pending")).length)

/-- `expire_old_pending_assignments` (sheet_utils.py, lines 471-518):
every row that is pending and whose Created_At string is lexicographically
below the cutoff timestamp gets its Status cell set to "expired", in place;
the count of such rows is returned.  `cutoff` is the formatted
`now - PENDING_EXPIRATION_DAYS` timestamp. -/
def expire_old_pending_assignments (sheet : List PRow) (cutoff : String) :
    List PRow × Nat :=
  (sheet.map (fun r =>
     if r.status == "pending" && decide (r.created_at < cutoff) then
       { r with status := "expired" }
     else r),
   (sheet.filter (fun r =>
     r.status == "pending" && decide (r.created_at < cutoff))).length)

/-- Decimal value of a digit sequence, as `int` computes it. -/
def digitsToNat (cs : List Char) : Nat :=
  cs.foldl (fun n c => n * 10 + (c.toNat - '0'.toNat)) 0

/-- `int(...)` on a Period cell.  The pipeline only writes these cells via
`str(period)`, on which the conversion always succeeds; on other text
Python would raise, which is outside the embedded domain, so the embedding
totalizes with 0. -/
def pyIntCell (s : String) : Int :=
  match s.data with
  | '-' :: rest =>
    if !rest.isEmpty && rest.all Char.isDigit then -(digitsToNat rest : Int)
    else 0
  | cs =>
    if !cs.isEmpty && cs.all Char.isDigit then (digitsToNat cs : Int) else 0

/-- The successful branch of `add_absence` (sheet_utils.py, lines 244-302):
appends one row to Leave_Logs, writing `str(period)` into the Period
column.  The failing branch (a spreadsheet exception, reported as `False`)
is injected into `finalize_pending_assignment` through `appendOk`. -/
def add_absence (logs : List LRow) (date absent_teacher day : String)
    (period : Int) (class_id subject substitute_teacher notes verified_by
    verified_at : String) : List LRow :=
  logs ++ [⟨date, absent_teacher, day, toString period, class_id, subject,
    substitute_teacher, notes, verified_by, verified_at⟩]

/-- `finalize_pending_assignment` (sheet_utils.py, lines 521-573): loads
the pending rows for the date, attempts to copy each one into Leave_Logs
independently (`appendOk` says which copies the external store accepts),
counts the successes, and — whenever at least one copy succeeded — calls
`delete_pending_assignments` for the WHOLE date.  Returns (count, pending
sheet after, leave logs after). -/
def finalize_pending_assignment (sheet : List PRow) (logs : List LRow)
    (target_date verified_by verified_at : String) (appendOk : PRow → Bool) :
    Nat × List PRow × List LRow :=
  let pending := load_pending_assignments sheet target_date
  if pending.isEmpty then (0, sheet, logs)
  else
    let copied := pending.filter appendOk
    let logs2 := copied.foldl (fun ls a =>
      add_absence ls a.date a.absent_teacher a.day (pyIntCell a.period)
        a.class_id a.subject a.substitute_teacher a.notes verified_by
        verified_at) logs
    let finalized_count := copied.length
    if finalized_count > 0 then
      (finalized_count, (delete_pending_assignments sheet target_date).1, logs2)
    else
      (finalized_count, sheet, logs2)

/-- One entry of the `updated` list produced by `detect_assignment_changes`
(report_parser.py, lines 400-411), which is also the change format consumed
by `update_pending_assignments`. -/
structure Change where
  date : String
  absent_teacher : String
  day : String
  period : Int
  class_id : String
  subject : String
  old_substitute : String
  new_substitute : String
  match_confidence : Rat
  match_method : String

deriving instance DecidableEq, Repr for Change

/-- Python `str.isdigit`: nonempty and every character a digit. -/
def pyIsDigit (s : String) : Bool := !(s == "") && s.data.all Char.isDigit

/-- The row-key Period conversion of `update_pending_assignments`
(sheet_utils.py, line 632): `int(cell) if cell.isdigit() else 0`. -/
def rowPeriodVal (s : String) : Int :=
  if pyIsDigit s then (digitsToNat s.data : Int) else 0

/-- The composite-key comparison of `update_pending_assignments`
(sheet_utils.py, lines 614-635): a sheet row matches a change when Date,
Absent_Teacher, Day and the parsed Period agree.  The Status column is NOT
consulted. -/
def changeKeyMatches (r : PRow) (c : Change) : Bool :=
  r.date == c.date && r.absent_teacher == c.absent_teacher &&
    r.day == c.day && rowPeriodVal r.period == c.period

/-- Index of the first sheet row matching a change key (the inner
`for row_idx, row in enumerate(data_rows)` search with `break`). -/
def findRowIdx : List PRow → Change → Option Nat
  | [], _ => none
  | r :: rs, c =>
    if changeKeyMatches r c then some 0 else (findRowIdx rs c).map (· + 1)

/-- Writes the Substitute_Teacher cell of the row at the given index. -/
def setSubstituteAt : List PRow → Nat → String → List PRow
  | [], _, _ => []
  | r :: rs, 0, v => { r with substitute_teacher := v } :: rs
  | r :: rs, n + 1, v => r :: setSubstituteAt rs n v

/-- The update list collected by `update_pending_assignments` before the
batch write: one (row index, new substitute) per change whose key was
found, searched over the rows as loaded at entry. -/
def updateTargets (sheet : List PRow) (changes : List Change) :
    List (Nat × String) :=
  changes.filterMap (fun c =>
    (findRowIdx sheet c).map (fun i => (i, c.new_substitute)))

/-- The error messages for changes whose key was not found. -/
def updateErrors (sheet : List PRow) (changes : List Change) : List String :=
  changes.filterMap (fun c =>
    match findRowIdx sheet c with
    | some _ => none
    | none => some ("Could not find pending assignment: " ++
        c.absent_teacher ++ " " ++ c.day ++ " period " ++ toString c.period))

/-- The sheet after `update_pending_assignments` executes its collected
updates (sheet_utils.py, lines 659-662): each prepared (row, value) write
sets only the Substitute_Teacher cell of that row.  The search indices were
computed on the rows as loaded, which is equivalent here because the writes
never touch the key columns. -/
def update_pending_sheet (sheet : List PRow) (changes : List Change) :
    List PRow :=
  (updateTargets sheet changes).foldl (fun s t => setSubstituteAt s t.1 t.2)
    sheet

/-- `update_pending_assignments` (sheet_utils.py, lines 576-674): returns
the updated sheet together with (count_updated, error_messages). -/
def update_pending_assignments (sheet : List PRow) (changes : List Change) :
    List PRow × Nat × List String :=
  let updates := updateTargets sheet changes
  let errors := updateErrors sheet changes
  if updates.isEmpty then
    (sheet, 0, if errors.isEmpty then ["No updates to apply"] else errors)
  else
    (update_pending_sheet sheet changes, updates.length, errors)

/-- Every cell of a pending row except Substitute_Teacher: the frame that
`update_pending_assignments` must not touch. -/
def prowFrame (r : PRow) :
    String × String × String × String × String × String × String × String ×
      String × String :=
  (r.date, r.absent_teacher, r.day, r.period, r.class_id, r.subject,
   r.notes, r.created_at, r.processed_at, r.status)

/-- The Leave_Logs row that `finalize_pending_assignment` writes for one
pending row: the pending cells plus the verifier stamp (the Period cell
round-trips through `int` and `str`). -/
def pendingToLog (verified_by verified_at : String) (a : PRow) : LRow :=
  ⟨a.date, a.absent_teacher, a.day, toString (pyIntCell a.period),
   a.class_id, a.subject, a.substitute_teacher, a.notes, verified_by,
   verified_at⟩

/-- Python whitespace, for `str.strip` and the regex class `\s`.  (Both
also cover other Unicode whitespace in Python; the pipeline's strings only
ever contain ASCII whitespace.) -/
def isPySpace (c : Char) : Bool :=
  c == ' ' || c == '\t' || c == '\n' || c == '\r' ||
    c == '\x0b' || c == '\x0c'

/-- Python `str.strip()`: remove leading and trailing whitespace. -/
def pyStrip (s : String) : String :=
  ⟨((s.data.dropWhile isPySpace).reverse.dropWhile isPySpace).reverse⟩

/-- Python `str.lower()`.  On the Thai names this pipeline handles,
`lower()` is the identity, and `Char.toLower` agrees with Python on
ASCII. -/
def pyLower (s : String) : String := ⟨s.data.map Char.toLower⟩

/-- `normalize_thai_name` (report_parser.py, lines 57-65): strip, remove a
leading "ครู" honorific (3 characters), strip again, lowercase. -/
def normalize_thai_name (name : String) : String :=
  let n := pyStrip name
  let n2 := if n.data.take 3 = "ครู".data then (⟨n.data.drop 3⟩ : String)
            else n
  pyLower (pyStrip n2)

/-- `fuzzy_match_score` (report_parser.py, lines 68-70):
`SequenceMatcher(None, str1.lower(), str2.lower()).ratio()`.  The
similarity ratio itself is computed by the Python standard library, an
external collaborator; it enters the embedding as the function `ratio`. -/
def fuzzy_match_score (ratio : String → String → Rat) (s1 s2 : String) :
    Rat :=
  ratio (pyLower s1) (pyLower s2)

/-- `match_teacher_name_to_id` (report_parser.py, lines 149-220), the
four-tier matcher.  `teacher_name_map` is the name→ID dictionary as an
association list in insertion order.  `aiMatch` embeds the optional
model-assisted tier (`use_ai and api_key`, lines 209-217): `none` when the
tier is disabled, otherwise a function returning the service's
`(matched_name, confidence)`, with `none` for a service miss, error or
timeout (`ai_fuzzy_match_teacher` returns `(None, 0.0, …)` then). -/
def match_teacher_name_to_id (ratio : String → String → Rat)
    (aiMatch : Option (String → Option (String × Rat)))
    (thai_name : String) (teacher_name_map : List (String × String)) :
    Option String × Rat × String :=
  if thai_name == "" || pyStrip thai_name == "" then (none, 0, "not_found")
  else
    let name := pyStrip thai_name
    match teacher_name_map.find? (fun kv => kv.1 == name) with
    | some kv => (some kv.2, 1, "exact")
    | none =>
      let normalized_input := normalize_thai_name name
      match teacher_name_map.find? (fun kv =>
          normalize_thai_name kv.1 == normalized_input) with
      | some kv => (some kv.2, mkRat 95 100, "normalized")
      | none =>
        let best := teacher_name_map.foldl (fun acc kv =>
          let score := fuzzy_match_score ratio name kv.1
          if score > acc.2 then (some kv.2, score) else acc)
          ((none : Option String), (0 : Rat))
        if mkRat 85 100 ≤ best.2 then (best.1, best.2, "fuzzy")
        else
          match aiMatch with
          | some f =>
            (match f name with
             | some (matched_name, confidence) =>
               if matched_name == "" then (none, 0, "not_found")
               else
                 match teacher_name_map.find? (fun kv =>
                     kv.1 == matched_name) with
                 | some kv => (some kv.2, confidence, "ai_fuzzy")
                 | none => (none, 0, "not_found")
             | none => (none, 0, "not_found"))
          | none => (none, 0, "not_found")

/-- One element of the fixed regular expressions of report_parser.py:
a literal, a greedy `\s*`, a lazy capturing `(.+?)`, or a greedy capturing
`(\d+)`.  The pipeline's patterns are built from exactly these pieces. -/
inductive RElem where
  | lit (cs : List Char)
  | ws
  | lazy1
  | digits1

/-- Backtracking matcher for a pattern at the START of `cs`, returning the
captured groups in order, with Python preference order: a literal must
match exactly; `\s*` tries the longest whitespace run first, then shorter;
`(.+?)` tries one character first, then longer; `(\d+)` tries the longest
digit run first, then shorter (at least one).  The tail of `cs` after the
match is unconstrained, as in `re.search`. -/
def matchSeq : List RElem → List Char → Option (List (List Char))
  | [], _ => some []
  | .lit l :: es, cs =>
    if cs.take l.length = l then matchSeq es (cs.drop l.length) else none
  | .ws :: es, cs =>
    ((List.range ((cs.takeWhile isPySpace).length + 1)).map
      (fun j => (cs.takeWhile isPySpace).length - j)).findSome?
      (fun k => matchSeq es (cs.drop k))
  | .lazy1 :: es, cs =>
    ((List.range cs.length).map (· + 1)).findSome? (fun k =>
      (matchSeq es (cs.drop k)).map (fun gs => cs.take k :: gs))
  | .digits1 :: es, cs =>
    ((List.range (cs.takeWhile Char.isDigit).length).map
      (fun j => (cs.takeWhile Char.isDigit).length - j)).findSome? (fun k =>
      (matchSeq es (cs.drop k)).map (fun gs => cs.take k :: gs))

/-- `re.search`: try the pattern at each position, leftmost first. -/
def reSearch (pat : List RElem) (cs : List Char) :
    Option (List (List Char)) :=
  (List.range (cs.length + 1)).findSome? (fun i => matchSeq pat (cs.drop i))

/-- `ASSIGNMENT_PATTERN` (report_parser.py, line 16):
`วิชา(.+?)\s*\((.+?)\):\s*(.+?)\s*\(ลา\)\s*➡️\s*(.+?)\s*\(สอนแทน\)`. -/
def ASSIGNMENT_PATTERN : List RElem :=
  [.lit "วิชา".data, .lazy1, .ws, .lit ['('], .lazy1, .lit [')', ':'], .ws,
   .lazy1, .ws, .lit "(ลา)".data, .ws, .lit "➡️".data, .ws, .lazy1, .ws,
   .lit "(สอนแทน)".data]

/-- `PERIOD_PATTERN` (report_parser.py, line 20): `คาบที่\s*(\d+):`. -/
def PERIOD_PATTERN : List RElem :=
  [.lit "คาบที่".data, .ws, .digits1, .lit [':']]

/-- `NO_SUBSTITUTE_PATTERN` (report_parser.py, line 21):
`❌\s*ไม่พบครูสอนแทน`. -/
def NO_SUBSTITUTE_PATTERN : List RElem :=
  [.lit ['❌'], .ws, .lit "ไม่พบครูสอนแทน".data]

/-- The five Thai day names of `DAY_PATTERN`, in alternation order. -/
def thaiDays : List String :=
  ["จันทร์", "อังคาร", "พุธ", "พฤหัสบดี", "ศุกร์"]

/-- `DAY_PATTERN` (report_parser.py, line 19) matched at one position:
`วัน(จันทร์|อังคาร|พุธ|พฤหัสบดี|ศุกร์):`, returning the day group. -/
def dayMatchAt (cs : List Char) : Option String :=
  if cs.take 3 = "วัน".data then
    thaiDays.findSome? (fun d =>
      if (cs.drop 3).take (d.data.length + 1) = d.data ++ [':'] then some d
      else none)
  else none

/-- `DAY_PATTERN.search`: leftmost day-header match, with its group. -/
def daySearch (cs : List Char) : Option String :=
  (List.range (cs.length + 1)).findSome? (fun i => dayMatchAt (cs.drop i))

/-- `DAY_MAP` (report_parser.py, lines 24-30). -/
def DAY_MAP : List (String × String) :=
  [("จันทร์", "Mon"), ("อังคาร", "Tue"), ("พุธ", "Wed"),
   ("พฤหัสบดี", "Thu"), ("ศุกร์", "Fri")]

/-- One parsed assignment as produced by `parse_edited_assignments`
(report_parser.py, lines 275-282). -/
structure Parsed where
  subject_thai : String
  class_id : String
  absent_teacher_name : String
  substitute_teacher_name : Option String
  day : String
  period : Int

deriving instance DecidableEq, Repr for Parsed

/-- Python `text.split(chr(10))`: split on every newline, keeping empty
pieces. -/
def splitOnNl : List Char → List (List Char)
  | [] => [[]]
  | c :: rest =>
    let r := splitOnNl rest
    if c = '\n' then [] :: r
    else
      match r with
      | h :: t => (c :: h) :: t
      | [] => [[c]]

/-- The loop body of `parse_edited_assignments` (report_parser.py, lines
247-282) for one line: strip it; a day-header match updates the current
day (through `DAY_MAP.get`) and continues; else a period-header match
updates the current period and continues; else an assignment-line match
emits one record, but only when the current day and current period are
both set and truthy (a day of "" or a period of 0 is falsy in Python);
any other line is skipped.  The emitted record strips each captured group
and replaces the substitute by `None` when the no-substitute marker
occurs in it. -/
def parseStep (st : Option String × Option Int) (line0 : String) :
    (Option String × Option Int) × List Parsed :=
  let line := pyStrip line0
  match daySearch line.data with
  | some thai_day =>
    (((DAY_MAP.find? (fun kv => kv.1 == thai_day)).map (fun kv => kv.2),
      st.2), [])
  | none =>
    match reSearch PERIOD_PATTERN line.data with
    | some gs => ((st.1, some (digitsToNat (gs.headD []) : Int)), [])
    | none =>
      match reSearch ASSIGNMENT_PATTERN line.data with
      | some (g1 :: g2 :: g3 :: g4 :: _) =>
        match st.1, st.2 with
        | some d, some p =>
          if !(d == "") && !(p == 0) then
            (st, [{ subject_thai := pyStrip ⟨g1⟩, class_id := pyStrip ⟨g2⟩,
                    absent_teacher_name := pyStrip ⟨g3⟩,
                    substitute_teacher_name :=
                      if (reSearch NO_SUBSTITUTE_PATTERN
                          (pyStrip ⟨g4⟩).data).isSome then none
                      else some (pyStrip ⟨g4⟩),
                    day := d, period := p }])
          else (st, [])
        | _, _ => (st, [])
      | _ => (st, [])

/-- `parse_edited_assignments` (report_parser.py, lines 223-284). -/
def parse_edited_assignments (report_text : String) : List Parsed :=
  (((splitOnNl report_text.data).map (fun cs => (⟨cs⟩ : String))).foldl
    (fun acc line =>
      let r := parseStep acc.1 line
      (r.1, acc.2 ++ r.2))
    (((none : Option String), (none : Option Int)), ([] : List Parsed))).2

/-- One entry of the `unchanged` list of `detect_assignment_changes`
(report_parser.py, lines 413-421). -/
structure UnchangedEntry where
  date : String
  absent_teacher : String
  day : String
  period : Int
  class_id : String
  subject : String
  substitute : Option String

deriving instance DecidableEq, Repr for UnchangedEntry

/-- One entry of the `ai_suggestions` list (report_parser.py, lines
384-395). -/
structure AISuggestion where
  date : String
  absent_teacher : String
  day : String
  period : Int
  class_id : String
  subject : String
  suggested_name : String
  suggested_id : Option String
  confidence : Rat
  old_substitute : String

deriving instance DecidableEq, Repr for AISuggestion

/-- One entry of the `not_found` list (report_parser.py, lines 372-376). -/
structure NotFoundEntry where
  parsed : Parsed
  absent_teacher_id : String
  substitute_teacher_id : Option String

deriving instance DecidableEq, Repr for NotFoundEntry

/-- One entry of the `match_errors` list (report_parser.py, lines
347-350). -/
structure MatchError where
  teacher_name : String
  context : String

deriving instance DecidableEq, Repr for MatchError

/-- The five result lists of `detect_assignment_changes`. -/
structure DetectResult where
  updated : List Change
  ai_suggestions : List AISuggestion
  unchanged : List UnchangedEntry
  not_found : List NotFoundEntry
  match_errors : List MatchError

deriving instance DecidableEq, Repr for DetectResult

/-- The composite key under which `detect_assignment_changes` indexes a
pending row (report_parser.py, lines 320-327): Date, Absent_Teacher, Day,
`int(Period)`. -/
def detectRowKey (r : PRow) : String × String × String × Int :=
  (r.date, r.absent_teacher, r.day, pyIntCell r.period)

/-- The `pending_lookup` dictionary: built by inserting every pending row
under its key, so a later row with the same key overwrites an earlier one
(hence: last matching row wins). -/
def pendingLookup (pending : List PRow)
    (key : String × String × String × Int) : Option PRow :=
  pending.reverse.find? (fun r => detectRowKey r == key)

/-- The context string of a match error (report_parser.py, line 349). -/
def mkContext (p : Parsed) : String :=
  p.subject_thai ++ " (" ++ p.class_id ++ ") - " ++ p.day ++ " คาบ " ++
    toString p.period

/-- Python `sub_id == old_substitute` where `sub_id` may be `None`: `None`
never equals a string. -/
def optEqStr (o : Option String) (s : String) : Bool :=
  match o with
  | some v => v == s
  | none => false

/-- Python `sub_id or chr(39)Not Foundchr(39)`: `None` and the empty string fall
back to the "Not Found" marker. -/
def pyOrNotFound (o : Option String) : String :=
  match o with
  | some v => if v == "" then "Not Found" else v
  | none => "Not Found"

/-- The classification of one parsed assignment by the loop body of
`detect_assignment_changes` (report_parser.py, lines 336-421). -/
inductive Classified where
  | err (e : MatchError)
  | notFound (n : NotFoundEntry)
  | ai (a : AISuggestion)
  | upd (u : Change)
  | unch (c : UnchangedEntry)

/-- The loop body of `detect_assignment_changes` for one parsed
assignment: resolve the absent name (falsy result → match error), resolve
the substitute name when present and truthy, look the composite key up in
the pending dictionary (miss → not_found), route low-confidence
model-assisted substitute matches (0.60 ≤ conf < ai_threshold) to
ai_suggestions, and otherwise compare the resolved substitute with the
pending row's current one: different → updated, same → unchanged. -/
def classifyOne (ratio : String → String → Rat)
    (aiMatch : Option (String → Option (String × Rat)))
    (nameMap : List (String × String)) (ai_threshold : Rat)
    (target_date : String)
    (lookup : String × String × String × Int → Option PRow)
    (p : Parsed) : Classified :=
  let am := match_teacher_name_to_id ratio aiMatch p.absent_teacher_name
    nameMap
  match am.1 with
  | none => .err ⟨p.absent_teacher_name, mkContext p⟩
  | some absent_id =>
    if absent_id == "" then .err ⟨p.absent_teacher_name, mkContext p⟩
    else
      let sm : Option String × Rat × String :=
        match p.substitute_teacher_name with
        | some sname =>
          if sname == "" then (none, 0, "not_found")
          else match_teacher_name_to_id ratio aiMatch sname nameMap
        | none => (none, 0, "not_found")
      match lookup (target_date, absent_id, p.day, p.period) with
      | none => .notFound ⟨p, absent_id, sm.1⟩
      | some pend =>
        if sm.2.2 == "ai_fuzzy" && decide (mkRat 60 100 ≤ sm.2.1) &&
            decide (sm.2.1 < ai_threshold) then
          .ai ⟨target_date, absent_id, p.day, p.period, p.class_id,
               p.subject_thai, (p.substitute_teacher_name).getD "", sm.1,
               sm.2.1, pend.substitute_teacher⟩
        else if !(optEqStr sm.1 pend.substitute_teacher) then
          .upd ⟨target_date, absent_id, p.day, p.period, p.class_id,
                p.subject_thai, pend.substitute_teacher, pyOrNotFound sm.1,
                sm.2.1, sm.2.2⟩
        else
          .unch ⟨target_date, absent_id, p.day, p.period, p.class_id,
                 p.subject_thai, sm.1⟩

/-- The loop of `detect_assignment_changes`, emitting each classification
into its result list in parsed order. -/
def detectGo (ratio : String → String → Rat)
    (aiMatch : Option (String → Option (String × Rat)))
    (nameMap : List (String × String)) (ai_threshold : Rat)
    (target_date : String)
    (lookup : String × String × String × Int → Option PRow) :
    List Parsed → DetectResult
  | [] => ⟨[], [], [], [], []⟩
  | p :: rest =>
    let r := detectGo ratio aiMatch nameMap ai_threshold target_date lookup
      rest
    match classifyOne ratio aiMatch nameMap ai_threshold target_date lookup
      p with
    | .err e => { r with match_errors := e :: r.match_errors }
    | .notFound n => { r with not_found := n :: r.not_found }
    | .ai a => { r with ai_suggestions := a :: r.ai_suggestions }
    | .upd u => { r with updated := u :: r.updated }
    | .unch c => { r with unchanged := c :: r.unchanged }

/-- `detect_assignment_changes` (report_parser.py, lines 287-429). -/
def detect_assignment_changes (ratio : String → String → Rat)
    (aiMatch : Option (String → Option (String × Rat)))
    (target_date : String) (parsed_assignments : List Parsed)
    (pending_assignments : List PRow) (nameMap : List (String × String))
    (ai_threshold : Rat) : DetectResult :=
  detectGo ratio aiMatch nameMap ai_threshold target_date
    (pendingLookup pending_assignments) parsed_assignments

/-- The substitute-name resolution triple (sub_id, sub_conf, sub_method)
computed by `detect_assignment_changes` for one parsed assignment
(report_parser.py, lines 353-365). -/
def subMatch (ratio : String → String → Rat)
    (aiMatch : Option (String → Option (String × Rat)))
    (nameMap : List (String × String)) (p : Parsed) :
    Option String × Rat × String :=
  match p.substitute_teacher_name with
  | some sname =>
    if sname == "" then (none, 0, "not_found")
    else match_teacher_name_to_id ratio aiMatch sname nameMap
  | none => (none, 0, "not_found")

/-- The composite key carried by an `updated` entry, as rebuilt by
`update_pending_assignments` when it searches the sheet. -/
def ukey (u : Change) : String × String × String × Int :=
  (u.date, u.absent_teacher, u.day, u.period)

/-- The composite key under which `detect_assignment_changes` looks a
parsed assignment up in the pending dictionary, when the absent name
resolves to a truthy id (`none` when name matching fails). -/
def resolvedKey (ratio : String → String → Rat)
    (aiMatch : Option (String → Option (String × Rat)))
    (nameMap : List (String × String)) (target_date : String)
    (p : Parsed) : Option (String × String × String × Int) :=
  match (match_teacher_name_to_id ratio aiMatch p.absent_teacher_name
    nameMap).1 with
  | none => none
  | some a => if a == "" then none
    else some (target_date, a, p.day, p.period)

/-- Writing the Substitute_Teacher cell of the first row matching a
change key: the row-search-then-write of `update_pending_assignments`,
expressed as one recursive pass. -/
def writeFirst (c : Change) (v : String) : List PRow → List PRow
  | [] => []
  | r :: rs =>
    if changeKeyMatches r c then { r with substitute_teacher := v } :: rs
    else r :: writeFirst c v rs

/-- The distinct user-facing messages of `process_substitution_report`
(webhook.py, lines 144-328), one constructor per `send_to_admin` text. -/
inductive ReportMsg where
  | invalidFormat
  | futureDate
  | staleDate
  | noPending
  | updateConfirmation
  | finalizedOk
  | noFinalized

deriving instance DecidableEq, Repr for ReportMsg

/-- The externally visible steps of `process_substitution_report`:
messages sent, and the calls into parsing, the pending store, change
detection (which performs all teacher-name matching), the pending update,
finalization, and the hours snapshot. -/
inductive ReportAction where
  | sendMsg (m : ReportMsg)
  | parseAssignments
  | loadPending
  | detectChanges
  | updatePending
  | finalize
  | writeSnapshot

deriving instance DecidableEq, Repr for ReportAction

/-- Control-flow trace of `process_substitution_report` (webhook.py, lines
159-317), with dates embedded as day numbers.  `reportDate` is the result
of `parse_report_date` plus `strptime` (`none` when either rejects; both
rejections send a date-format message and return).  A future date
(`report_date > today`, line 183) sends its message and RETURNS; a stale
date (`(today - report_date).days > PENDING_EXPIRATION_DAYS`, line 195)
sends its warning and FALLS THROUGH, so parsing, change detection (with
its name matching) and finalization still run.  `hasPending`, `hasUpdates`
and `finalizedPositive` abstract the data-dependent branch conditions
(lines 228, 262, 288). -/
def process_substitution_report_trace (reportDate : Option Int)
    (today expirationDays : Int) (hasPending hasUpdates finalizedPositive :
    Bool) : List ReportAction :=
  match reportDate with
  | none => [.sendMsg .invalidFormat]
  | some d =>
    if today < d then [.sendMsg .futureDate]
    else
      (if expirationDays < today - d then [ReportAction.sendMsg .staleDate]
       else [])
      ++ [.parseAssignments, .loadPending]
      ++ (if hasPending then
            [ReportAction.detectChanges]
            ++ (if hasUpdates then
                  [ReportAction.updatePending,
                   ReportAction.sendMsg .updateConfirmation]
                else [])
            ++ [ReportAction.finalize]
            ++ (if finalizedPositive then
                  [ReportAction.writeSnapshot,
                   ReportAction.sendMsg .finalizedOk]
                else [ReportAction.sendMsg .noFinalized])
          else [ReportAction.sendMsg .noPending])

theorem assignAux_records (day_id : String) (timetable : List Row)
    (teacher_subjects : String → List String) (substitute_logs : List Row)
    (all_teacher_ids absent_teacher_ids : List String) (leave_logs : List Row)
    (teacher_levels : String → List String)
    (class_levels : String → Option String) (pick : List String → String) :
    ∀ rows acc out,
      assignAux day_id timetable teacher_subjects substitute_logs
        all_teacher_ids absent_teacher_ids leave_logs teacher_levels
        class_levels pick rows acc = .ok out →
      ∃ tail, out = acc ++ tail ∧
        List.Forall₂ (recordsEntry day_id)
          (rows.filter (fun row =>
            row.day_id == day_id &&
              absent_teacher_ids.contains row.teacher_id)) tail := by
  intro rows
  induction rows with
  | nil =>
    intro acc out h
    refine ⟨[], ?_, ?_⟩
    · simpa [assignAux] using h.symm
    · simp [List.Forall₂]
  | cons row rest ih =>
    intro acc out h
    rw [assignAux] at h
    by_cases hc : (row.day_id == day_id &&
        absent_teacher_ids.contains row.teacher_id) = true
    · rw [if_pos hc] at h
      simp only [List.filter_cons]
      rw [if_pos hc]
      cases hfb : find_best_substitute_teacher row.subject_id day_id
          row.period_id row.class_id timetable teacher_subjects
          (substitute_logs ++ acc) all_teacher_ids absent_teacher_ids
          leave_logs teacher_levels class_levels pick with
      | error e => rw [hfb] at h; exact absurd h (by simp)
      | ok substitute =>
        rw [hfb] at h
        obtain ⟨tail, hout, hfa⟩ := ih _ _ h
        refine ⟨{ teacher_id := row.teacher_id, subject_id := row.subject_id,
                  day_id := day_id, period_id := row.period_id,
                  class_id := row.class_id,
                  substitute_teacher := pyOptStr substitute } :: tail, ?_, ?_⟩
        · simpa [List.append_assoc] using hout
        · exact List.Forall₂.cons (by simp [recordsEntry]) hfa
    · rw [if_neg hc] at h
      simp only [List.filter_cons]
      rw [if_neg hc]
      exact ih _ _ h

/-- C3 (always-record): whenever `assign_substitutes_for_day` returns a
list, that list has exactly one record per timetable entry of the given day
whose teacher is absent, in timetable order, each record copying the
entry's teacher, subject, day, period, and class.  Records with no
substitute found are included like any other (nothing constrains
`substitute_teacher`), so no absence period is dropped. -/
theorem assign_substitutes_always_records (day_id : String)
    (timetable : List Row) (teacher_subjects : String → List String)
    (substitute_logs : List Row) (all_teacher_ids absent_teacher_ids : List String)
    (leave_logs : List Row) (teacher_levels : String → List String)
    (class_levels : String → Option String) (pick : List String → String)
    (out : List Row)
    (h : assign_substitutes_for_day day_id timetable teacher_subjects
      substitute_logs all_teacher_ids absent_teacher_ids leave_logs
      teacher_levels class_levels pick = .ok out) :
    List.Forall₂ (recordsEntry day_id)
      (timetable.filter (fun row =>
        row.day_id == day_id && absent_teacher_ids.contains row.teacher_id))
      out ∧
    out.length = (timetable.filter (fun row =>
        row.day_id == day_id &&
          absent_teacher_ids.contains row.teacher_id)).length := by
  obtain ⟨tail, hout, hfa⟩ := assignAux_records day_id timetable
    teacher_subjects substitute_logs all_teacher_ids absent_teacher_ids
    leave_logs teacher_levels class_levels pick timetable [] out h
  subst hout
  exact ⟨by simpa using hfa, by simpa using hfa.length_eq.symm⟩

/-- Witness for C3: a concrete run with one absent teacher over a two-row
timetable returns exactly one record, matching the one absent entry. -/
theorem assign_substitutes_always_records_witness :
    assign_substitutes_for_day "Mon"
      [⟨"T001", "S1", "Mon", 1, "C1", none⟩, ⟨"T002", "S2", "Tue", 2, "C2", none⟩]
      (fun _ => []) [] ["T001", "T002", "T003"] ["T001"] []
      (fun _ => []) (fun _ => none) (fun l => l.headD "")
      = .ok [⟨"T001", "S1", "Mon", 1, "C1", some "T003"⟩] ∧
    List.Forall₂ (recordsEntry "Mon")
      (([⟨"T001", "S1", "Mon", 1, "C1", none⟩,
         ⟨"T002", "S2", "Tue", 2, "C2", none⟩] : List Row).filter (fun row =>
        row.day_id == "Mon" && (["T001"] : List String).contains row.teacher_id))
      [⟨"T001", "S1", "Mon", 1, "C1", some "T003"⟩] := by
  have hrun : assign_substitutes_for_day "Mon"
      [⟨"T001", "S1", "Mon", 1, "C1", none⟩, ⟨"T002", "S2", "Tue", 2, "C2", none⟩]
      (fun _ => []) [] ["T001", "T002", "T003"] ["T001"] []
      (fun _ => []) (fun _ => none) (fun l => l.headD "")
      = .ok [⟨"T001", "S1", "Mon", 1, "C1", some "T003"⟩] := by
    simp only [assign_substitutes_for_day, assignAux, find_best_substitute_teacher,
      calculate_score, is_available, pyOptStr, last_resort_teachers]
    try simp [List.filter_cons, List.filterMap_cons, List.any_cons, max_def]
    try norm_num
    try simp [List.filter_cons, List.filterMap_cons, List.any_cons, max_def]
    try norm_num
    try simp [List.filter_cons, List.filterMap_cons, List.any_cons, max_def]
    try norm_num
  exact ⟨hrun, (assign_substitutes_always_records "Mon" _ _ _ _ _ _ _ _ _ _ hrun).1⟩

/-- C6 (scoring formula): for a non-absent teacher the score is the sum of
the last-resort penalty, the subject bonus, the level bonus or mismatch
penalty, minus 2 per period already scheduled that day of week, minus 1 per
historical substitution, minus one half per scheduled period on days other
than the teacher's own recorded leave days; an absent teacher scores
exactly -999. -/
theorem calculate_score_formula (subject_id day_id class_id : String)
    (timetables : List Row) (teacher_subjects : String → List String)
    (substitute_logs : List Row) (absent_teacher_ids : List String)
    (leave_logs : List Row) (teacher_levels : String → List String)
    (class_levels : String → Option String) (t : String) :
    (t ∉ absent_teacher_ids →
      calculate_score subject_id day_id class_id timetables teacher_subjects
        substitute_logs absent_teacher_ids leave_logs teacher_levels
        class_levels t =
      (if t ∈ last_resort_teachers then (-50 : Rat) else 0)
      + (if subject_id ∈ teacher_subjects t then (2 : Rat) else 0)
      + (if ∃ lv ∈ teacher_levels t, class_levels class_id = some lv
          then (5 : Rat) else -2)
      - 2 * (timetables.countP (fun row =>
          decide (row.teacher_id = t ∧ row.day_id = day_id)) : Rat)
      - (substitute_logs.countP (fun row => decide (row.teacher_id = t)) : Rat)
      - (1/2) * (timetables.countP (fun row =>
          decide (row.teacher_id = t ∧
            row.day_id ∉ leave_logs.filterMap (fun l =>
              if l.teacher_id = t then some l.day_id else none))) : Rat)) ∧
    (t ∈ absent_teacher_ids →
      calculate_score subject_id day_id class_id timetables teacher_subjects
        substitute_logs absent_teacher_ids leave_logs teacher_levels
        class_levels t = -999) := by
  constructor
  · intro habs
    rw [calculate_score, if_neg (by simpa [List.elem_iff] using habs)]
    have hmem : ∀ (l : List String) (a : String),
        l.contains a = decide (a ∈ l) := by
      intro l a
      by_cases h : a ∈ l <;> simp [h, List.elem_iff]
    have hdaily : (timetables.filter (fun row =>
        row.teacher_id == t && row.day_id == day_id)).length
        = timetables.countP (fun row =>
            decide (row.teacher_id = t ∧ row.day_id = day_id)) := by
      rw [List.countP_eq_length_filter]
      refine congrArg List.length (List.filter_congr ?_)
      intro row _
      by_cases h1 : row.teacher_id = t <;> by_cases h2 : row.day_id = day_id <;>
        simp [h1, h2]
    have hhist : (substitute_logs.filter (fun row =>
        row.teacher_id == t)).length
        = substitute_logs.countP (fun row => decide (row.teacher_id = t)) := by
      rw [List.countP_eq_length_filter]
      refine congrArg List.length (List.filter_congr ?_)
      intro row _
      by_cases h1 : row.teacher_id = t <;> simp [h1]
    have hterm : (timetables.filter (fun row =>
        row.teacher_id == t &&
          !(leave_logs.any (fun l =>
            l.teacher_id == t && l.day_id == row.day_id)))).length
        = timetables.countP (fun row =>
            decide (row.teacher_id = t ∧
              row.day_id ∉ leave_logs.filterMap (fun l =>
                if l.teacher_id = t then some l.day_id else none))) := by
      rw [List.countP_eq_length_filter]
      refine congrArg List.length (List.filter_congr ?_)
      intro row _
      have hset : (row.day_id ∈ leave_logs.filterMap (fun l =>
          if l.teacher_id = t then some l.day_id else none)) ↔
          (leave_logs.any (fun l =>
            l.teacher_id == t && l.day_id == row.day_id) = true) := by
        simp only [List.mem_filterMap, List.any_eq_true, Bool.and_eq_true,
          beq_iff_eq]
        constructor
        · rintro ⟨l, hl, hif⟩
          by_cases hlt : l.teacher_id = t
          · refine ⟨l, hl, hlt, ?_⟩
            simp only [if_pos hlt, Option.some.injEq] at hif
            exact hif
          · simp [if_neg hlt] at hif
        · rintro ⟨l, hl, hlt, hld⟩
          exact ⟨l, hl, by simp [if_pos hlt, hld]⟩
      by_cases h1 : row.teacher_id = t
      · by_cases h2 : (leave_logs.any (fun l =>
            l.teacher_id == t && l.day_id == row.day_id)) = true
        · simp [h1, h2, hset]
        · simp only [Bool.not_eq_true] at h2
          simp [h1, h2, hset]
      · simp [h1]
    rw [hdaily, hhist, hterm]
    simp only [hmem, decide_eq_true_eq]
    rcases hcl : class_levels class_id with _ | lv
    · simp [hcl]
    · simp only [hcl]
      by_cases hlvl : lv ∈ teacher_levels t
      · have h2 : ∃ lv' ∈ teacher_levels t, (some lv : Option String) = some lv' :=
          ⟨lv, hlvl, rfl⟩
        rw [if_pos hlvl, if_pos h2]
      · have h2 : ¬ ∃ lv' ∈ teacher_levels t, (some lv : Option String) = some lv' := by
          rintro ⟨lv', hlv', heq⟩
          rw [Option.some.injEq] at heq
          exact hlvl (heq ▸ hlv')
        rw [if_neg hlvl, if_neg h2]
  · intro habs
    rw [calculate_score, if_pos (by simpa [List.elem_iff] using habs)]

/-- Witness for C6: both branches of the formula theorem at a concrete
input: teacher T003 (not absent) scores by the flat formula, and absent
teacher T001 scores -999. -/
theorem calculate_score_formula_witness :
    ("T003" ∉ (["T001"] : List String)) ∧
    calculate_score "S1" "Mon" "C1" [⟨"T001", "S1", "Mon", 1, "C1", none⟩]
      (fun _ => []) [] ["T001"] [] (fun _ => []) (fun _ => none) "T003" =
      (if "T003" ∈ last_resort_teachers then (-50 : Rat) else 0)
      + (if "S1" ∈ ([] : List String) then (2 : Rat) else 0)
      + (if ∃ lv ∈ ([] : List String), (none : Option String) = some lv
          then (5 : Rat) else -2)
      - 2 * (([⟨"T001", "S1", "Mon", 1, "C1", none⟩] : List Row).countP (fun row =>
          decide (row.teacher_id = "T003" ∧ row.day_id = "Mon")) : Rat)
      - (([] : List Row).countP (fun row => decide (row.teacher_id = "T003")) : Rat)
      - (1/2) * (([⟨"T001", "S1", "Mon", 1, "C1", none⟩] : List Row).countP (fun row =>
          decide (row.teacher_id = "T003" ∧
            row.day_id ∉ ([] : List Row).filterMap (fun l =>
              if l.teacher_id = "T003" then some l.day_id else none))) : Rat) ∧
    ("T001" ∈ (["T001"] : List String)) ∧
    calculate_score "S1" "Mon" "C1" [⟨"T001", "S1", "Mon", 1, "C1", none⟩]
      (fun _ => []) [] ["T001"] [] (fun _ => []) (fun _ => none) "T001" = -999 :=
  ⟨by decide,
   (calculate_score_formula "S1" "Mon" "C1" [⟨"T001", "S1", "Mon", 1, "C1", none⟩]
     (fun _ => []) [] ["T001"] [] (fun _ => []) (fun _ => none) "T003").1 (by decide),
   by decide,
   (calculate_score_formula "S1" "Mon" "C1" [⟨"T001", "S1", "Mon", 1, "C1", none⟩]
     (fun _ => []) [] ["T001"] [] (fun _ => []) (fun _ => none) "T001").2 (by decide)⟩

/-- C1 (double-booking IS possible within a run, contrary to the claim and
to the docstring of `assign_substitutes_for_day`): with teachers T001 and
T002 both absent and both scheduled at (Mon, period 1), and T003 the only
other teacher, the run assigns T003 as substitute for BOTH records at the
same (day, period).  The availability filter cannot exclude T003 for the
second record because the record appended for the first one stores the
ABSENT teacher (T001) under `teacher_id`, which is the field `is_available`
checks.  `pick := List.headD ""` is a valid embedding of `random.choice`
here: both tied-top-candidate lists are the singleton `["T003"]`, so every
choice function returns T003. -/
theorem assign_double_books_within_run :
    assign_substitutes_for_day "Mon"
      [⟨"T001", "S1", "Mon", 1, "C1", none⟩, ⟨"T002", "S2", "Mon", 1, "C2", none⟩]
      (fun _ => []) [] ["T001", "T002", "T003"] ["T001", "T002"] []
      (fun _ => []) (fun _ => none) (fun l => l.headD "")
      = .ok [⟨"T001", "S1", "Mon", 1, "C1", some "T003"⟩,
             ⟨"T002", "S2", "Mon", 1, "C2", some "T003"⟩] ∧
    ([⟨"T001", "S1", "Mon", 1, "C1", some "T003"⟩,
      ⟨"T002", "S2", "Mon", 1, "C2", some "T003"⟩] : List Row).map
        (fun r => (r.day_id, r.period_id, r.substitute_teacher))
      = [("Mon", 1, some "T003"), ("Mon", 1, some "T003")] := by
  constructor
  · simp only [assign_substitutes_for_day, assignAux, find_best_substitute_teacher,
      calculate_score, is_available, pyOptStr, last_resort_teachers]
    try simp [List.filter_cons, List.filterMap_cons, List.any_cons, max_def]
    try norm_num
    try simp [List.filter_cons, List.filterMap_cons, List.any_cons, max_def]
    try norm_num
    try simp [List.filter_cons, List.filterMap_cons, List.any_cons, max_def]
    try norm_num
  · rfl

theorem setSubstituteAt_length :
    ∀ (s : List PRow) (i : Nat) (v : String),
      (setSubstituteAt s i v).length = s.length := by
  intro s
  induction s with
  | nil => intro i v; cases i <;> simp [setSubstituteAt]
  | cons r rs ih =>
    intro i v
    cases i with
    | zero => simp [setSubstituteAt]
    | succ i => simp [setSubstituteAt, ih i v]

theorem setSubstituteAt_getElem? :
    ∀ (s : List PRow) (i : Nat) (v : String) (j : Nat),
      (setSubstituteAt s i v)[j]? =
        if j = i then
          (s[j]?).map (fun r => { r with substitute_teacher := v })
        else s[j]? := by
  intro s
  induction s with
  | nil =>
    intro i v j
    cases i <;> simp [setSubstituteAt]
  | cons r rs ih =>
    intro i v j
    cases i with
    | zero =>
      cases j with
      | zero => simp [setSubstituteAt]
      | succ j => simp [setSubstituteAt]
    | succ i =>
      cases j with
      | zero => simp [setSubstituteAt]
      | succ j =>
        simp only [setSubstituteAt, List.getElem?_cons_succ]
        rw [ih i v j]
        by_cases hj : j = i
        · rw [if_pos hj, if_pos (by omega)]
        · rw [if_neg hj, if_neg (by omega)]

theorem setSubstituteAt_map_frame :
    ∀ (s : List PRow) (i : Nat) (v : String),
      (setSubstituteAt s i v).map prowFrame = s.map prowFrame := by
  intro s
  induction s with
  | nil => intro i v; cases i <;> simp [setSubstituteAt]
  | cons r rs ih =>
    intro i v
    cases i with
    | zero => simp [setSubstituteAt, prowFrame]
    | succ i => simp [setSubstituteAt, ih i v]

theorem setSubstituteAt_map_status :
    ∀ (s : List PRow) (i : Nat) (v : String),
      (setSubstituteAt s i v).map (fun r => r.status) =
        s.map (fun r => r.status) := by
  intro s
  induction s with
  | nil => intro i v; cases i <;> simp [setSubstituteAt]
  | cons r rs ih =>
    intro i v
    cases i with
    | zero => simp [setSubstituteAt]
    | succ i => simp [setSubstituteAt, ih i v]

theorem update_fold_map_frame :
    ∀ (ts : List (Nat × String)) (s : List PRow),
      (ts.foldl (fun s t => setSubstituteAt s t.1 t.2) s).map prowFrame =
        s.map prowFrame := by
  intro ts
  induction ts with
  | nil => intro s; rfl
  | cons t ts ih =>
    intro s
    rw [List.foldl_cons, ih, setSubstituteAt_map_frame]

theorem update_fold_map_status :
    ∀ (ts : List (Nat × String)) (s : List PRow),
      (ts.foldl (fun s t => setSubstituteAt s t.1 t.2) s).map
          (fun r => r.status) = s.map (fun r => r.status) := by
  intro ts
  induction ts with
  | nil => intro s; rfl
  | cons t ts ih =>
    intro s
    rw [List.foldl_cons, ih, setSubstituteAt_map_status]

theorem findRowIdx_spec :
    ∀ (s : List PRow) (c : Change) (i : Nat), findRowIdx s c = some i →
      ∃ r, s[i]? = some r ∧ changeKeyMatches r c = true := by
  intro s
  induction s with
  | nil => intro c i h; simp [findRowIdx] at h
  | cons r rs ih =>
    intro c i h
    rw [findRowIdx] at h
    by_cases hm : changeKeyMatches r c = true
    · rw [if_pos hm] at h
      obtain rfl : (0 : Nat) = i := by simpa using h
      exact ⟨r, by simp, hm⟩
    · rw [if_neg hm] at h
      cases hfi : findRowIdx rs c with
      | none => rw [hfi] at h; simp at h
      | some i' =>
        rw [hfi] at h
        obtain rfl : i' + 1 = i := by simpa using h
        obtain ⟨r', hr', hm'⟩ := ih c i' hfi
        exact ⟨r', by simpa using hr', hm'⟩

theorem update_pending_sheet_getElem? (sheet : List PRow)
    (changes : List Change) :
    ∀ j : Nat,
      (update_pending_sheet sheet changes)[j]? = sheet[j]? ∨
      ∃ c ∈ changes, ∃ r, sheet[j]? = some r ∧
        changeKeyMatches r c = true ∧
        (update_pending_sheet sheet changes)[j]? =
          some { r with substitute_teacher := c.new_substitute } := by
  have hval : ∀ t ∈ updateTargets sheet changes,
      ∃ c ∈ changes, ∃ r, sheet[t.1]? = some r ∧
        changeKeyMatches r c = true ∧ t.2 = c.new_substitute := by
    intro t ht
    simp only [updateTargets, List.mem_filterMap, Option.map_eq_some'] at ht
    obtain ⟨c, hc, i, hfi, hti⟩ := ht
    subst hti
    obtain ⟨r, hr, hm⟩ := findRowIdx_spec sheet c i hfi
    exact ⟨c, hc, r, hr, hm, rfl⟩
  have main : ∀ (ts : List (Nat × String)),
      (∀ t ∈ ts, ∃ c ∈ changes, ∃ r, sheet[t.1]? = some r ∧
        changeKeyMatches r c = true ∧ t.2 = c.new_substitute) →
      ∀ (s : List PRow),
      (∀ j : Nat, s[j]? = sheet[j]? ∨
        ∃ c ∈ changes, ∃ r, sheet[j]? = some r ∧ changeKeyMatches r c = true ∧
          s[j]? = some { r with substitute_teacher := c.new_substitute }) →
      ∀ j : Nat,
        (ts.foldl (fun s t => setSubstituteAt s t.1 t.2) s)[j]? = sheet[j]? ∨
        ∃ c ∈ changes, ∃ r, sheet[j]? = some r ∧ changeKeyMatches r c = true ∧
          (ts.foldl (fun s t => setSubstituteAt s t.1 t.2) s)[j]? =
            some { r with substitute_teacher := c.new_substitute } := by
    intro ts
    induction ts with
    | nil => intro _ s hs j; simpa using hs j
    | cons t ts ih =>
      intro hv s hs j
      rw [List.foldl_cons]
      refine ih (fun t' ht' => hv t' (List.mem_cons_of_mem _ ht')) _ ?_ j
      intro j'
      rw [setSubstituteAt_getElem?]
      by_cases hj : j' = t.1
      · subst hj
        rw [if_pos rfl]
        obtain ⟨c, hc, r, hr, hm, hv2⟩ := hv t (List.mem_cons_self _ _)
        rcases hs t.1 with h1 | ⟨c', hc', r', hr', hm', h2⟩
        · right
          refine ⟨c, hc, r, hr, hm, ?_⟩
          rw [h1, hr, Option.map_some', hv2]
        · right
          obtain rfl : r = r' := by
            have := hr.symm.trans hr'
            simpa using this
          refine ⟨c, hc, r, hr, hm, ?_⟩
          rw [h2, Option.map_some', hv2]
      · rw [if_neg hj]
        exact hs j'
  exact main (updateTargets sheet changes) hval sheet (fun j => Or.inl rfl)

/-- C9 as amended (frame property of the reconciliation update): the
updated sheet has the same rows in the same order, with every cell other
than Substitute_Teacher unchanged, and a row's Substitute_Teacher cell
differs only when it received the new substitute of a change matching the
row's composite key (date, absent_teacher, day, period).  The original
claim's restriction "and only of pending records" does NOT hold: the key
comparison never consults the Status column (see the counterexample). -/
theorem update_pending_sheet_frame (sheet : List PRow)
    (changes : List Change) :
    (update_pending_sheet sheet changes).length = sheet.length ∧
    (update_pending_sheet sheet changes).map prowFrame =
      sheet.map prowFrame ∧
    ∀ j : Nat,
      (update_pending_sheet sheet changes)[j]? = sheet[j]? ∨
      ∃ c ∈ changes, ∃ r, sheet[j]? = some r ∧
        changeKeyMatches r c = true ∧
        (update_pending_sheet sheet changes)[j]? =
          some { r with substitute_teacher := c.new_substitute } := by
  refine ⟨?_, ?_, update_pending_sheet_getElem? sheet changes⟩
  · have h := update_fold_map_frame (updateTargets sheet changes) sheet
    have := congrArg List.length h
    simpa [update_pending_sheet] using this
  · exact update_fold_map_frame (updateTargets sheet changes) sheet

/-- Counterexample to C9 as stated: `update_pending_assignments` rewrites
the Substitute_Teacher cell of a row whose status is "expired" (not
pending), because the row search matches on the composite key only. -/
theorem update_pending_writes_nonpending_row :
    update_pending_sheet
      [⟨"2025-01-05", "T001", "Mon", "1", "C5", "Math", "T017", "",
        "2025-01-01 08:00:00", "", "expired"⟩]
      [⟨"2025-01-05", "T001", "Mon", 1, "C5", "Math", "T017", "T005", 1,
        "exact"⟩] =
      [⟨"2025-01-05", "T001", "Mon", "1", "C5", "Math", "T005", "",
        "2025-01-01 08:00:00", "", "expired"⟩] ∧
    (⟨"2025-01-05", "T001", "Mon", "1", "C5", "Math", "T017", "",
        "2025-01-01 08:00:00", "", "expired"⟩ : PRow).status = "expired" := by
  constructor
  · rfl
  · rfl

theorem add_absence_foldl (verified_by verified_at : String) :
    ∀ (rows : List PRow) (logs : List LRow),
      rows.foldl (fun ls a =>
        add_absence ls a.date a.absent_teacher a.day (pyIntCell a.period)
          a.class_id a.subject a.substitute_teacher a.notes verified_by
          verified_at) logs
      = logs ++ rows.map (pendingToLog verified_by verified_at) := by
  intro rows
  induction rows with
  | nil => intro logs; simp
  | cons r rs ih =>
    intro logs
    rw [List.foldl_cons, ih]
    simp [add_absence, pendingToLog]

theorem load_after_delete_nil (sheet : List PRow) (target_date : String) :
    load_pending_assignments (delete_pending_assignments sheet target_date).1
      target_date = [] := by
  simp only [load_pending_assignments, delete_pending_assignments,
    List.filter_filter]
  apply List.filter_eq_nil_iff.mpr
  intro r _
  by_cases h : (r.date == target_date && r.status == "pending") = true <;>
    simp [h]

/-- C2 as amended (finalization semantics): `finalize_pending_assignment`
attempts each pending row's copy independently and returns the number of
rows the ledger accepted, appending exactly the accepted rows to
Leave_Logs; but whenever at least one copy succeeded it deletes ALL
pending rows for the date — the rows whose copy failed included — and when
no copy succeeded it deletes nothing.  (The original claim, that exactly
the successfully copied rows are removed and a failed row remains pending,
does not hold: see the counterexample.) -/
theorem finalize_partial_semantics (sheet : List PRow) (logs : List LRow)
    (target_date verified_by verified_at : String) (appendOk : PRow → Bool) :
    (finalize_pending_assignment sheet logs target_date verified_by
      verified_at appendOk).1 =
      ((load_pending_assignments sheet target_date).filter appendOk).length ∧
    (finalize_pending_assignment sheet logs target_date verified_by
      verified_at appendOk).2.2 =
      logs ++ ((load_pending_assignments sheet target_date).filter
        appendOk).map (pendingToLog verified_by verified_at) ∧
    (0 < (finalize_pending_assignment sheet logs target_date verified_by
        verified_at appendOk).1 →
      load_pending_assignments (finalize_pending_assignment sheet logs
        target_date verified_by verified_at appendOk).2.1 target_date = []) ∧
    ((finalize_pending_assignment sheet logs target_date verified_by
        verified_at appendOk).1 = 0 →
      (finalize_pending_assignment sheet logs target_date verified_by
        verified_at appendOk).2.1 = sheet) := by
  simp only [finalize_pending_assignment]
  by_cases hemp : (load_pending_assignments sheet target_date).isEmpty = true
  · have hnil : load_pending_assignments sheet target_date = [] :=
      List.isEmpty_iff.mp hemp
    rw [if_pos hemp]
    refine ⟨by simp [hnil], by simp [hnil], ?_, fun _ => rfl⟩
    intro h
    exact absurd h (by simp)
  · rw [if_neg hemp]
    rw [add_absence_foldl]
    by_cases hpos : 0 <
        ((load_pending_assignments sheet target_date).filter appendOk).length
    · rw [if_pos hpos]
      exact ⟨rfl, rfl, fun _ => load_after_delete_nil sheet target_date,
        fun h0 => absurd (h0 ▸ hpos) (by simp)⟩
    · rw [if_neg hpos]
      exact ⟨rfl, rfl, fun h => absurd h hpos, fun _ => rfl⟩

/-- Witness for C2 (amended): two pending rows for 2025-01-06, the ledger
rejects T002's copy; the returned count is positive and the whole date is
cleared from pending. -/
theorem finalize_partial_semantics_witness :
    0 < (finalize_pending_assignment
      [⟨"2025-01-06", "T001", "Tue", "1", "C1", "S1", "T010", "", "ts1", "",
        "pending"⟩,
       ⟨"2025-01-06", "T002", "Tue", "2", "C2", "S2", "T011", "", "ts1", "",
        "pending"⟩] [] "2025-01-06" "U1" "TS"
      (fun r => !(r.absent_teacher == "T002"))).1 ∧
    load_pending_assignments (finalize_pending_assignment
      [⟨"2025-01-06", "T001", "Tue", "1", "C1", "S1", "T010", "", "ts1", "",
        "pending"⟩,
       ⟨"2025-01-06", "T002", "Tue", "2", "C2", "S2", "T011", "", "ts1", "",
        "pending"⟩] [] "2025-01-06" "U1" "TS"
      (fun r => !(r.absent_teacher == "T002"))).2.1 "2025-01-06" = [] :=
  ⟨by decide,
   (finalize_partial_semantics
      [⟨"2025-01-06", "T001", "Tue", "1", "C1", "S1", "T010", "", "ts1", "",
        "pending"⟩,
       ⟨"2025-01-06", "T002", "Tue", "2", "C2", "S2", "T011", "", "ts1", "",
        "pending"⟩] [] "2025-01-06" "U1" "TS"
      (fun r => !(r.absent_teacher == "T002"))).2.2.1 (by decide)⟩

/-- Counterexample to C2 as stated (Scenario D): four pending rows for
2025-01-05 of which T002's copy fails; the call returns 3, but the failed
row does NOT remain pending — `delete_pending_assignments` clears every
pending row of the date, so the pending set for the date is empty. -/
theorem finalize_deletes_failed_row :
    (finalize_pending_assignment
      [⟨"2025-01-05", "T001", "Mon", "1", "C1", "S1", "T010", "", "ts0", "",
        "pending"⟩,
       ⟨"2025-01-05", "T002", "Mon", "2", "C2", "S2", "T011", "", "ts0", "",
        "pending"⟩,
       ⟨"2025-01-05", "T003", "Mon", "3", "C3", "S3", "T012", "", "ts0", "",
        "pending"⟩,
       ⟨"2025-01-05", "T004", "Mon", "4", "C4", "S4", "T013", "", "ts0", "",
        "pending"⟩] [] "2025-01-05" "U1" "TS"
      (fun r => !(r.absent_teacher == "T002"))).1 = 3 ∧
    (fun (r : PRow) => !(r.absent_teacher == "T002"))
      ⟨"2025-01-05", "T002", "Mon", "2", "C2", "S2", "T011", "", "ts0", "",
        "pending"⟩ = false ∧
    (⟨"2025-01-05", "T002", "Mon", "2", "C2", "S2", "T011", "", "ts0", "",
        "pending"⟩ : PRow) ∈ load_pending_assignments
      [⟨"2025-01-05", "T001", "Mon", "1", "C1", "S1", "T010", "", "ts0", "",
        "pending"⟩,
       ⟨"2025-01-05", "T002", "Mon", "2", "C2", "S2", "T011", "", "ts0", "",
        "pending"⟩,
       ⟨"2025-01-05", "T003", "Mon", "3", "C3", "S3", "T012", "", "ts0", "",
        "pending"⟩,
       ⟨"2025-01-05", "T004", "Mon", "4", "C4", "S4", "T013", "", "ts0", "",
        "pending"⟩] "2025-01-05" ∧
    load_pending_assignments (finalize_pending_assignment
      [⟨"2025-01-05", "T001", "Mon", "1", "C1", "S1", "T010", "", "ts0", "",
        "pending"⟩,
       ⟨"2025-01-05", "T002", "Mon", "2", "C2", "S2", "T011", "", "ts0", "",
        "pending"⟩,
       ⟨"2025-01-05", "T003", "Mon", "3", "C3", "S3", "T012", "", "ts0", "",
        "pending"⟩,
       ⟨"2025-01-05", "T004", "Mon", "4", "C4", "S4", "T013", "", "ts0", "",
        "pending"⟩] [] "2025-01-05" "U1" "TS"
      (fun r => !(r.absent_teacher == "T002"))).2.1 "2025-01-05" = [] := by
  refine ⟨by decide, by decide, by decide, by decide⟩

/-- C8 (monotonic lifecycle): no store operation moves a finalized or
expired row back to pending.  The expiration sweep keeps every row in
place (same length), changing at most the Status cell of rows currently
pending, and only to "expired"; the reconciliation update never touches
any Status cell; deletion and finalization only remove rows (every
surviving row is an unmodified row of the sheet); creation appends a fresh
row with status "pending" and leaves existing rows unchanged. -/
theorem lifecycle_status_monotonic (sheet : List PRow) (logs : List LRow)
    (cutoff target_date verified_by verified_at : String)
    (appendOk : PRow → Bool) (changes : List Change)
    (date absent day : String) (period : Int)
    (cls subj sub notes created processed : String) :
    (expire_old_pending_assignments sheet cutoff).1.length = sheet.length ∧
    List.Forall₂ (fun r2 r => r2 = r ∨
        (r.status = "pending" ∧ r2 = { r with status := "expired" }))
      (expire_old_pending_assignments sheet cutoff).1 sheet ∧
    (update_pending_sheet sheet changes).map (fun r => r.status) =
      sheet.map (fun r => r.status) ∧
    ((delete_pending_assignments sheet target_date).1).Sublist sheet ∧
    ((finalize_pending_assignment sheet logs target_date verified_by
      verified_at appendOk).2.1).Sublist sheet ∧
    add_pending_assignment sheet date absent day period cls subj sub notes
        created processed =
      sheet ++ [mk_pending_row date absent day period cls subj sub notes
        created processed] ∧
    (mk_pending_row date absent day period cls subj sub notes created
      processed).status = "pending" := by
  refine ⟨by simp [expire_old_pending_assignments], ?_, ?_, ?_, ?_, rfl, rfl⟩
  · simp only [expire_old_pending_assignments]
    induction sheet with
    | nil => exact List.Forall₂.nil
    | cons r rs ih =>
      rw [List.map_cons]
      refine List.Forall₂.cons ?_ ih
      by_cases h : (r.status == "pending" && decide (r.created_at < cutoff))
          = true
      · right
        refine ⟨?_, by rw [if_pos h]⟩
        have := (Bool.and_eq_true _ _).mp h
        exact beq_iff_eq.mp this.1
      · left
        rw [if_neg h]
  · exact update_fold_map_status (updateTargets sheet changes) sheet
  · exact List.filter_sublist _
  · simp only [finalize_pending_assignment]
    by_cases hemp : (load_pending_assignments sheet target_date).isEmpty
        = true
    · rw [if_pos hemp]
    · rw [if_neg hemp]
      by_cases hpos : 0 <
          ((load_pending_assignments sheet target_date).filter
            appendOk).length
      · rw [if_pos hpos]
        exact List.filter_sublist _
      · rw [if_neg hpos]

/-- C5 as amended (report date gate): a report dated strictly after today
is rejected with its own message and nothing else runs — no parsing, no
change detection (hence no name matching), no finalization; a report older
than the expiration threshold gets its own, different, warning message,
but processing CONTINUES: the trace still parses the report, runs change
detection and finalization.  (The original claim, that the stale case also
stops before any matching or finalization, does not hold: see the
counterexample.) -/
theorem report_date_gate (d today expirationDays : Int)
    (hasPending hasUpdates finalizedPositive : Bool) :
    (today < d →
      process_substitution_report_trace (some d) today expirationDays
        hasPending hasUpdates finalizedPositive =
          [.sendMsg .futureDate]) ∧
    (¬ today < d → expirationDays < today - d →
      ReportAction.sendMsg .staleDate ∈
        process_substitution_report_trace (some d) today expirationDays
          hasPending hasUpdates finalizedPositive ∧
      (hasPending = true →
        ReportAction.detectChanges ∈
          process_substitution_report_trace (some d) today expirationDays
            hasPending hasUpdates finalizedPositive ∧
        ReportAction.finalize ∈
          process_substitution_report_trace (some d) today expirationDays
            hasPending hasUpdates finalizedPositive)) ∧
    ReportMsg.futureDate ≠ ReportMsg.staleDate := by
  refine ⟨?_, ?_, by decide⟩
  · intro h
    simp [process_substitution_report_trace, h]
  · intro hfut hstale
    refine ⟨?_, ?_⟩
    · simp [process_substitution_report_trace, hfut, hstale]
    · intro hp
      constructor <;>
        simp [process_substitution_report_trace, hfut, hstale, hp]

/-- Witness for C5 (amended): a report dated day 10 with today = day 5 is
rejected outright, and a report dated day 0 with today = day 8 and a
7-day threshold gets the stale warning yet still reaches change detection
and finalization. -/
theorem report_date_gate_witness :
    ((5 : Int) < 10) ∧
    process_substitution_report_trace (some 10) 5 7 true true true =
      [.sendMsg .futureDate] ∧
    (¬ (8 : Int) < 0) ∧ ((7 : Int) < 8 - 0) ∧
    ReportAction.detectChanges ∈
      process_substitution_report_trace (some 0) 8 7 true false true ∧
    ReportAction.finalize ∈
      process_substitution_report_trace (some 0) 8 7 true false true :=
  ⟨by decide,
   (report_date_gate 10 5 7 true true true).1 (by decide),
   by decide, by decide,
   (((report_date_gate 0 8 7 true false true).2.1 (by decide)
      (by decide)).2 rfl).1,
   (((report_date_gate 0 8 7 true false true).2.1 (by decide)
      (by decide)).2 rfl).2⟩

/-- Counterexample to C5 as stated: a report 8 days old against a 7-day
threshold sends the stale-date warning and then PROCESSES the report
anyway — the trace continues with parsing, pending lookup, change
detection (which performs the name matching) and finalization, because
the stale branch of `process_substitution_report` does not return. -/
theorem stale_report_still_processed :
    process_substitution_report_trace (some 0) 8 7 true false true =
      [.sendMsg .staleDate, .parseAssignments, .loadPending, .detectChanges,
       .finalize, .writeSnapshot, .sendMsg .finalizedOk] ∧
    ReportAction.detectChanges ∈
      process_substitution_report_trace (some 0) 8 7 true false true ∧
    ReportAction.finalize ∈
      process_substitution_report_trace (some 0) 8 7 true false true := by
  refine ⟨by decide, by decide, by decide⟩

theorem find_assoc_nodup :
    ∀ (map : List (String × String)) (k v : String),
      (map.map Prod.fst).Nodup → (k, v) ∈ map →
      map.find? (fun kv => kv.1 == k) = some (k, v) := by
  intro map
  induction map with
  | nil => intro k v _ hmem; simp at hmem
  | cons kv rest ih =>
    intro k v hnd hmem
    by_cases hp : (kv.1 == k) = true
    · rcases List.mem_cons.mp hmem with heq | hrest
      · subst heq
        simp [List.find?_cons, hp]
      · exfalso
        have hk : k ∈ rest.map Prod.fst :=
          List.mem_map.mpr ⟨(k, v), hrest, rfl⟩
        have : kv.1 ∉ rest.map Prod.fst :=
          (List.nodup_cons.mp (by simpa using hnd)).1
        exact this (beq_iff_eq.mp hp ▸ hk)
    · rcases List.mem_cons.mp hmem with heq | hrest
      · exact absurd (by rw [← heq]; exact beq_self_eq_true k) hp
      · rw [Bool.not_eq_true] at hp
        simp only [List.find?_cons, hp]
        exact ih k v (List.Nodup.of_cons (by simpa using hnd)) hrest

theorem bestFold_spec (score : (String × String) → Rat) :
    ∀ (l : List (String × String)) (b0 : Option String) (m0 : Rat),
      (l.foldl (fun acc kv =>
          if score kv > acc.2 then (some kv.2, score kv) else acc) (b0, m0)).2
        = (l.map score).foldl max m0 ∧
      ((l.foldl (fun acc kv =>
          if score kv > acc.2 then (some kv.2, score kv) else acc) (b0, m0))
          = (b0, m0) ∨
        ∃ kv ∈ l, score kv = (l.foldl (fun acc kv =>
          if score kv > acc.2 then (some kv.2, score kv) else acc) (b0, m0)).2 ∧
          (l.foldl (fun acc kv =>
            if score kv > acc.2 then (some kv.2, score kv) else acc) (b0, m0)).1
            = some kv.2) := by
  intro l
  induction l with
  | nil => intro b0 m0; exact ⟨rfl, Or.inl rfl⟩
  | cons kv rest ih =>
    intro b0 m0
    rw [List.foldl_cons, List.map_cons, List.foldl_cons]
    by_cases h : score kv > m0
    · rw [if_pos h]
      refine ⟨?_, ?_⟩
      · rw [(ih (some kv.2) (score kv)).1]
        have hmx : max m0 (score kv) = score kv := max_eq_right (le_of_lt h)
        rw [hmx]
      · rcases (ih (some kv.2) (score kv)).2 with heq | ⟨kv2, hm, hs, hb⟩
        · right
          exact ⟨kv, List.mem_cons_self _ _, by rw [heq], by rw [heq]⟩
        · right
          exact ⟨kv2, List.mem_cons_of_mem _ hm, hs, hb⟩
    · rw [if_neg h]
      refine ⟨?_, ?_⟩
      · rw [(ih b0 m0).1]
        have hmx : max m0 (score kv) = m0 := max_eq_left (not_lt.mp h)
        rw [hmx]
      · rcases (ih b0 m0).2 with heq | ⟨kv2, hm, hs, hb⟩
        · left; exact heq
        · right; exact ⟨kv2, List.mem_cons_of_mem _ hm, hs, hb⟩

/-- C7 as amended (tier order and confidences, with tier 1 applied to the
whitespace-trimmed input as the code does): over a name map with distinct
keys, (1) if the trimmed name is a key, the matcher returns its entry with
confidence 1.0, method exact; (2) otherwise, if some canonical name has
the same normalization (honorific stripped, trimmed, lowercased), it
returns such an entry with confidence 0.95, method normalized; (3)
otherwise, writing best for the highest character-similarity ratio over
all canonical names, if best ≥ 0.85 the matcher returns an entry attaining
best with confidence best, method fuzzy; (4) and if additionally
best < 0.85 and the optional model-assisted tier is disabled or fails, it
returns (none, 0.0, not_found).  (On a raw name carrying surrounding
whitespace, tier 1 fires on the trimmed name with confidence 1.0 where the
claim as stated prescribes the normalized tier at 0.95: see the
counterexample.) -/
theorem match_teacher_name_tiers (ratio : String → String → Rat)
    (aiMatch : Option (String → Option (String × Rat)))
    (thai_name : String) (teacher_name_map : List (String × String))
    (id : String) :
    (((teacher_name_map.map Prod.fst).Nodup) →
      pyStrip thai_name = thai_name → thai_name ≠ "" →
      (thai_name, id) ∈ teacher_name_map →
      match_teacher_name_to_id ratio aiMatch thai_name teacher_name_map =
        (some id, 1, "exact")) ∧
    (pyStrip thai_name = thai_name → thai_name ≠ "" →
      thai_name ∉ teacher_name_map.map Prod.fst →
      (∃ kv ∈ teacher_name_map,
        normalize_thai_name kv.1 = normalize_thai_name thai_name) →
      ∃ kv ∈ teacher_name_map,
        normalize_thai_name kv.1 = normalize_thai_name thai_name ∧
        match_teacher_name_to_id ratio aiMatch thai_name teacher_name_map =
          (some kv.2, mkRat 95 100, "normalized")) ∧
    (pyStrip thai_name = thai_name → thai_name ≠ "" →
      thai_name ∉ teacher_name_map.map Prod.fst →
      (∀ kv ∈ teacher_name_map,
        normalize_thai_name kv.1 ≠ normalize_thai_name thai_name) →
      mkRat 85 100 ≤ ((teacher_name_map.map (fun kv =>
        fuzzy_match_score ratio thai_name kv.1)).foldl max 0) →
      ∃ kv ∈ teacher_name_map,
        fuzzy_match_score ratio thai_name kv.1 =
          ((teacher_name_map.map (fun kv =>
            fuzzy_match_score ratio thai_name kv.1)).foldl max 0) ∧
        match_teacher_name_to_id ratio aiMatch thai_name teacher_name_map =
          (some kv.2,
           ((teacher_name_map.map (fun kv =>
             fuzzy_match_score ratio thai_name kv.1)).foldl max 0),
           "fuzzy")) ∧
    (pyStrip thai_name = thai_name → thai_name ≠ "" →
      thai_name ∉ teacher_name_map.map Prod.fst →
      (∀ kv ∈ teacher_name_map,
        normalize_thai_name kv.1 ≠ normalize_thai_name thai_name) →
      ((teacher_name_map.map (fun kv =>
        fuzzy_match_score ratio thai_name kv.1)).foldl max 0) < mkRat 85 100 →
      (match aiMatch with
       | none => True
       | some f => f thai_name = none ∨
           ∃ mn conf, f thai_name = some (mn, conf) ∧
             (mn = "" ∨ mn ∉ teacher_name_map.map Prod.fst)) →
      match_teacher_name_to_id ratio aiMatch thai_name teacher_name_map =
        (none, 0, "not_found")) := by
  have hguard : ∀ (htrim : pyStrip thai_name = thai_name)
      (hne : thai_name ≠ ""),
      (thai_name == "" || pyStrip thai_name == "") = false := by
    intro htrim hne
    rw [htrim]
    simp [hne]
  have hkeyfail : ∀ (x : String), x ∉ teacher_name_map.map Prod.fst →
      teacher_name_map.find? (fun kv => kv.1 == x) = none := by
    intro x hnk
    apply List.find?_eq_none.mpr
    intro kv hkv
    simp only [beq_iff_eq]
    intro hkvk
    exact hnk (List.mem_map.mpr ⟨kv, hkv, hkvk⟩)
  refine ⟨?_, ?_, ?_, ?_⟩
  · intro hnd htrim hne hmem
    rw [match_teacher_name_to_id, hguard htrim hne]
    simp only [Bool.false_eq_true, if_false, htrim]
    rw [find_assoc_nodup teacher_name_map thai_name id hnd hmem]
  · intro htrim hne hnk hex
    rw [match_teacher_name_to_id, hguard htrim hne]
    simp only [Bool.false_eq_true, if_false, htrim]
    rw [hkeyfail thai_name hnk]
    cases hfind : teacher_name_map.find? (fun kv =>
        normalize_thai_name kv.1 == normalize_thai_name thai_name) with
    | none =>
      exfalso
      obtain ⟨kv, hm, hn⟩ := hex
      exact absurd (beq_iff_eq.mpr hn) (by
        simpa using List.find?_eq_none.mp hfind kv hm)
    | some kv =>
      have hmem := List.mem_of_find?_eq_some hfind
      have hp := List.find?_some hfind
      simp only [beq_iff_eq] at hp
      exact ⟨kv, hmem, hp, rfl⟩
  · intro htrim hne hnk hnonorm hthr
    rw [match_teacher_name_to_id, hguard htrim hne]
    simp only [Bool.false_eq_true, if_false, htrim]
    rw [hkeyfail thai_name hnk]
    rw [List.find?_eq_none.mpr (fun kv hkv => by
      simpa using hnonorm kv hkv)]
    have hspec := bestFold_spec
      (fun kv => fuzzy_match_score ratio thai_name kv.1) teacher_name_map
      (none : Option String) (0 : Rat)
    rcases hspec.2 with heq | ⟨kv, hm, hs, hb⟩
    · exfalso
      have h2 := hspec.1
      rw [heq] at h2
      rw [← h2] at hthr
      norm_num at hthr
    · refine ⟨kv, hm, by rw [hs]; exact hspec.1, ?_⟩
      rw [if_pos (by rw [hspec.1]; exact hthr)]
      rw [hb, hspec.1]
  · intro htrim hne hnk hnonorm hlt hai
    rw [match_teacher_name_to_id, hguard htrim hne]
    simp only [Bool.false_eq_true, if_false, htrim]
    rw [hkeyfail thai_name hnk]
    rw [List.find?_eq_none.mpr (fun kv hkv => by
      simpa using hnonorm kv hkv)]
    have hspec := bestFold_spec
      (fun kv => fuzzy_match_score ratio thai_name kv.1) teacher_name_map
      (none : Option String) (0 : Rat)
    rw [if_neg (by rw [hspec.1]; exact not_le.mpr hlt)]
    cases haim : aiMatch with
    | none => rfl
    | some f =>
      rw [haim] at hai
      rcases hai with hnone | ⟨mn, conf, hf, hbad⟩
      · simp only [hnone]
      · simp only [hf]
        rcases hbad with hmn | hmn
        · rw [if_pos (by simp [hmn])]
        · by_cases hmn0 : mn = ""
          · rw [if_pos (by simp [hmn0])]
          · rw [if_neg (by simp [hmn0])]
            rw [hkeyfail mn hmn]

/-- Counterexample to C7 as stated: for the raw input " ครูเอก" (leading
space), which is NOT a key of the map, the matcher returns the exact tier
with confidence 1.0 — it strips the input first — although a normalized
match exists, so the claim as stated prescribes `(id, 0.95, normalized)`
for this input. -/
theorem match_name_untrimmed_exact :
    match_teacher_name_to_id (fun _ _ => 0) none " ครูเอก"
      [("ครูเอก", "T001")] = (some "T001", 1, "exact") ∧
    " ครูเอก" ≠ "ครูเอก" ∧
    normalize_thai_name "ครูเอก" = normalize_thai_name " ครูเอก" := by
  refine ⟨rfl, by decide, rfl⟩

/-- Witness for C7 (amended), exercising the fuzzy tier: the misspelled
name "ครุสุจิตร" is no key and normalizes to no key; with every similarity
ratio 9/10 the matcher resolves via tier 3 at confidence 9/10, method
fuzzy. -/
theorem match_teacher_name_tiers_witness :
    mkRat 85 100 ≤
      (([("ครูสมชาย", "T001"), ("ครูสุจิตร", "T005")].map (fun kv =>
        fuzzy_match_score (fun _ _ => mkRat 9 10) "ครุสุจิตร" kv.1)).foldl
          max 0) ∧
    ∃ kv ∈ [("ครูสมชาย", "T001"), ("ครูสุจิตร", "T005")],
      fuzzy_match_score (fun _ _ => mkRat 9 10) "ครุสุจิตร" kv.1 =
        (([("ครูสมชาย", "T001"), ("ครูสุจิตร", "T005")].map (fun kv =>
          fuzzy_match_score (fun _ _ => mkRat 9 10) "ครุสุจิตร" kv.1)).foldl
            max 0) ∧
      match_teacher_name_to_id (fun _ _ => mkRat 9 10) none "ครุสุจิตร"
          [("ครูสมชาย", "T001"), ("ครูสุจิตร", "T005")] =
        (some kv.2,
         (([("ครูสมชาย", "T001"), ("ครูสุจิตร", "T005")].map (fun kv =>
           fuzzy_match_score (fun _ _ => mkRat 9 10) "ครุสุจิตร" kv.1)).foldl
             max 0),
         "fuzzy") :=
  ⟨by norm_num [fuzzy_match_score, max_def],
   (match_teacher_name_tiers (fun _ _ => mkRat 9 10) none "ครุสุจิตร"
      [("ครูสมชาย", "T001"), ("ครูสุจิตร", "T005")] "T001").2.2.1
     (by decide) (by decide) (by decide) (by decide)
     (by norm_num [fuzzy_match_score, max_def])⟩

theorem parseStep_no_assign (st : Option String × Option Int)
    (line : String)
    (h : reSearch ASSIGNMENT_PATTERN (pyStrip line).data = none) :
    (parseStep st line).2 = [] := by
  simp only [parseStep]
  cases hds : daySearch (pyStrip line).data with
  | some d => rfl
  | none =>
    cases hpp : reSearch PERIOD_PATTERN (pyStrip line).data with
    | some gs => rfl
    | none => rw [h]

/-- C10 (parser guard): `parse_edited_assignments` never raises (it is a
total function by construction); a record is emitted only from a line
that, stripped, matches no day header and no period header but does match
the assignment pattern, and only when the running current-day and
current-period are both set and truthy — which requires that at least one
day header and one period header were seen earlier, since those are the
only lines that change the respective state components; the emitted record
carries the most recently seen day and period and the stripped captured
groups, with substitute `None` exactly when the captured substitute text
contains the no-substitute marker; lines matching no pattern leave the
state unchanged and emit nothing; and a text none of whose lines matches
the assignment pattern parses to the empty list. -/
theorem parse_edited_assignments_spec :
    (∀ (st : Option String × Option Int) (line : String) (rec : Parsed),
      rec ∈ (parseStep st line).2 →
      daySearch (pyStrip line).data = none ∧
      reSearch PERIOD_PATTERN (pyStrip line).data = none ∧
      ∃ d p, st = (some d, some p) ∧ d ≠ "" ∧ p ≠ 0 ∧
        rec.day = d ∧ rec.period = p ∧
        ∃ g1 g2 g3 g4 rest,
          reSearch ASSIGNMENT_PATTERN (pyStrip line).data =
            some (g1 :: g2 :: g3 :: g4 :: rest) ∧
          (parseStep st line).2 = [rec] ∧
          rec.subject_thai = pyStrip ⟨g1⟩ ∧
          rec.class_id = pyStrip ⟨g2⟩ ∧
          rec.absent_teacher_name = pyStrip ⟨g3⟩ ∧
          rec.substitute_teacher_name =
            (if (reSearch NO_SUBSTITUTE_PATTERN
                (pyStrip ⟨g4⟩).data).isSome then none
             else some (pyStrip ⟨g4⟩))) ∧
    (∀ (st : Option String × Option Int) (line : String),
      daySearch (pyStrip line).data = none →
      reSearch PERIOD_PATTERN (pyStrip line).data = none →
      reSearch ASSIGNMENT_PATTERN (pyStrip line).data = none →
      parseStep st line = (st, [])) ∧
    (∀ (st : Option String × Option Int) (line : String),
      (parseStep st line).1.1 = st.1 ∨
        daySearch (pyStrip line).data ≠ none) ∧
    (∀ (st : Option String × Option Int) (line : String),
      (parseStep st line).1.2 = st.2 ∨
        reSearch PERIOD_PATTERN (pyStrip line).data ≠ none) ∧
    (∀ text : String,
      (∀ cs ∈ splitOnNl text.data,
        reSearch ASSIGNMENT_PATTERN (pyStrip (⟨cs⟩ : String)).data = none) →
      parse_edited_assignments text = []) := by
  refine ⟨?_, ?_, ?_, ?_, ?_⟩
  · intro st line rec hrec
    simp only [parseStep] at hrec
    cases hds : daySearch (pyStrip line).data with
    | some d => simp [hds] at hrec
    | none =>
    cases hpp : reSearch PERIOD_PATTERN (pyStrip line).data with
    | some gs => simp [hds, hpp] at hrec
    | none =>
    cases hap : reSearch ASSIGNMENT_PATTERN (pyStrip line).data with
    | none => simp [hds, hpp, hap] at hrec
    | some gs =>
    rcases gs with _ | ⟨g1, _ | ⟨g2, _ | ⟨g3, _ | ⟨g4, rest⟩⟩⟩⟩
    · simp [hds, hpp, hap] at hrec
    · simp [hds, hpp, hap] at hrec
    · simp [hds, hpp, hap] at hrec
    · simp [hds, hpp, hap] at hrec
    obtain ⟨s1, s2⟩ := st
    cases s1 with
    | none => simp [hds, hpp, hap] at hrec
    | some d =>
    cases s2 with
    | none => simp [hds, hpp, hap] at hrec
    | some p =>
    simp only [hds, hpp, hap] at hrec
    by_cases hcond : (!(d == "") && !(p == 0)) = true
    · rw [if_pos hcond] at hrec
      simp only [List.mem_singleton] at hrec
      have hd : d ≠ "" := by
        have := ((Bool.and_eq_true _ _).mp hcond).1
        simpa using this
      have hp : p ≠ 0 := by
        have := ((Bool.and_eq_true _ _).mp hcond).2
        simpa using this
      refine ⟨rfl, rfl, d, p, rfl, hd, hp, by rw [hrec], by rw [hrec],
        g1, g2, g3, g4, rest, rfl, ?_, by rw [hrec], by rw [hrec],
        by rw [hrec], by rw [hrec]⟩
      simp only [parseStep, hds, hpp, hap]
      rw [if_pos hcond, hrec]
    · rw [if_neg hcond] at hrec
      simp at hrec
  · intro st line hds hpp hap
    simp only [parseStep, hds, hpp, hap]
  · intro st line
    simp only [parseStep]
    cases hds : daySearch (pyStrip line).data with
    | some d => right; simp
    | none =>
    left
    cases hpp : reSearch PERIOD_PATTERN (pyStrip line).data with
    | some gs => rfl
    | none =>
    cases hap : reSearch ASSIGNMENT_PATTERN (pyStrip line).data with
    | none => rfl
    | some gs =>
    rcases gs with _ | ⟨g1, _ | ⟨g2, _ | ⟨g3, _ | ⟨g4, rest⟩⟩⟩⟩
    · rfl
    · rfl
    · rfl
    · rfl
    obtain ⟨s1, s2⟩ := st
    cases s1 with
    | none => rfl
    | some d =>
    cases s2 with
    | none => rfl
    | some p =>
    by_cases hcond : (!(d == "") && !(p == 0)) = true
    · simp [parseStep, hds, hpp, hap, hcond]
    · simp [parseStep, hds, hpp, hap, hcond]
  · intro st line
    simp only [parseStep]
    cases hds : daySearch (pyStrip line).data with
    | some d => left; rfl
    | none =>
    cases hpp : reSearch PERIOD_PATTERN (pyStrip line).data with
    | some gs => right; simp
    | none =>
    left
    cases hap : reSearch ASSIGNMENT_PATTERN (pyStrip line).data with
    | none => rfl
    | some gs =>
    rcases gs with _ | ⟨g1, _ | ⟨g2, _ | ⟨g3, _ | ⟨g4, rest⟩⟩⟩⟩
    · rfl
    · rfl
    · rfl
    · rfl
    obtain ⟨s1, s2⟩ := st
    cases s1 with
    | none => rfl
    | some d =>
    cases s2 with
    | none => rfl
    | some p =>
    by_cases hcond : (!(d == "") && !(p == 0)) = true
    · simp [parseStep, hds, hpp, hap, hcond]
    · simp [parseStep, hds, hpp, hap, hcond]
  · intro text hnone
    have main : ∀ (liness : List (List Char)),
        (∀ cs ∈ liness,
          reSearch ASSIGNMENT_PATTERN (pyStrip (⟨cs⟩ : String)).data = none) →
        ∀ (st : Option String × Option Int) (acc : List Parsed),
        ((liness.map (fun cs => (⟨cs⟩ : String))).foldl
          (fun acc line =>
            let r := parseStep acc.1 line
            (r.1, acc.2 ++ r.2)) (st, acc)).2 = acc := by
      intro liness
      induction liness with
      | nil => intro _ st acc; rfl
      | cons cs rest ih =>
        intro hno st acc
        rw [List.map_cons, List.foldl_cons]
        have hstep : (parseStep st (⟨cs⟩ : String)).2 = [] :=
          parseStep_no_assign st _ (hno cs (List.mem_cons_self _ _))
        rw [ih (fun c hc => hno c (List.mem_cons_of_mem _ hc))]
        rw [hstep, List.append_nil]
    have h := main (splitOnNl text.data) hnone
      ((none : Option String), (none : Option Int)) []
    simpa [parse_edited_assignments] using h

/-- Witness for C10: with day Mon and period 1 current, one concrete
assignment line emits exactly the expected record, and a text with no
assignment line parses to the empty list. -/
theorem parse_edited_assignments_spec_witness :
    ((⟨"ก", "ข", "ค", some "ง", "Mon", 1⟩ : Parsed) ∈
      (parseStep ((some "Mon", some 1))
        "วิชาก (ข): ค (ลา) ➡️ ง (สอนแทน)").2) ∧
    (daySearch (pyStrip "วิชาก (ข): ค (ลา) ➡️ ง (สอนแทน)").data = none ∧
     reSearch PERIOD_PATTERN
       (pyStrip "วิชาก (ข): ค (ลา) ➡️ ง (สอนแทน)").data = none ∧
     ∃ d p, ((some "Mon", some 1) : Option String × Option Int) =
         (some d, some p) ∧ d ≠ "" ∧ p ≠ 0 ∧
       (⟨"ก", "ข", "ค", some "ง", "Mon", 1⟩ : Parsed).day = d ∧
       (⟨"ก", "ข", "ค", some "ง", "Mon", 1⟩ : Parsed).period = p ∧
       ∃ g1 g2 g3 g4 rest,
         reSearch ASSIGNMENT_PATTERN
           (pyStrip "วิชาก (ข): ค (ลา) ➡️ ง (สอนแทน)").data =
             some (g1 :: g2 :: g3 :: g4 :: rest) ∧
         (parseStep ((some "Mon", some 1))
           "วิชาก (ข): ค (ลา) ➡️ ง (สอนแทน)").2 =
             [⟨"ก", "ข", "ค", some "ง", "Mon", 1⟩] ∧
         (⟨"ก", "ข", "ค", some "ง", "Mon", 1⟩ : Parsed).subject_thai =
           pyStrip ⟨g1⟩ ∧
         (⟨"ก", "ข", "ค", some "ง", "Mon", 1⟩ : Parsed).class_id =
           pyStrip ⟨g2⟩ ∧
         (⟨"ก", "ข", "ค", some "ง", "Mon", 1⟩ : Parsed).absent_teacher_name =
           pyStrip ⟨g3⟩ ∧
         (⟨"ก", "ข", "ค", some "ง", "Mon", 1⟩ : Parsed).substitute_teacher_name
           = (if (reSearch NO_SUBSTITUTE_PATTERN
               (pyStrip ⟨g4⟩).data).isSome then none
              else some (pyStrip ⟨g4⟩))) ∧
    parse_edited_assignments "สวัสดี\nวันจันทร์:" = [] :=
  ⟨by decide,
   parse_edited_assignments_spec.1 ((some "Mon", some 1))
     "วิชาก (ข): ค (ลา) ➡️ ง (สอนแทน)"
     ⟨"ก", "ข", "ค", some "ง", "Mon", 1⟩ (by decide),
   parse_edited_assignments_spec.2.2.2.2 "สวัสดี\nวันจันทร์:" (by decide)⟩

theorem pyIntCell_of_digits (s : String) (h : pyIsDigit s = true) :
    pyIntCell s = (digitsToNat s.data : Int) := by
  simp only [pyIsDigit, Bool.and_eq_true] at h
  cases s with
  | mk l =>
    cases l with
    | nil => exact absurd h (by decide)
    | cons c cs =>
      have hall : (c :: cs).all Char.isDigit = true := h.2
      simp only [List.all_cons, Bool.and_eq_true] at hall
      simp only [pyIntCell]
      split
      · next rest heq =>
        have hc : c = '-' := (List.cons.injEq _ _ _ _ ▸ heq).1
        rw [hc] at hall
        exact absurd hall.1 (by decide)
      · rw [if_pos]
        simp only [List.isEmpty_cons, Bool.not_false, Bool.true_and,
          List.all_cons, Bool.and_eq_true]
        exact ⟨hall.1, hall.2⟩

theorem rowPeriodVal_of_digits (s : String) (h : pyIsDigit s = true) :
    rowPeriodVal s = (digitsToNat s.data : Int) := by
  rw [rowPeriodVal, if_pos h]

theorem changeKeyMatches_iff (r : PRow) (c : Change)
    (hd : pyIsDigit r.period = true) :
    changeKeyMatches r c = true ↔ detectRowKey r = ukey c := by
  simp only [changeKeyMatches, detectRowKey, ukey, Bool.and_eq_true,
    beq_iff_eq, Prod.mk.injEq, rowPeriodVal_of_digits _ hd,
    pyIntCell_of_digits _ hd, and_assoc]

theorem changeKeyMatches_set (r : PRow) (v : String) (c : Change) :
    changeKeyMatches { r with substitute_teacher := v } c =
      changeKeyMatches r c := rfl

theorem detectRowKey_set (r : PRow) (v : String) :
    detectRowKey { r with substitute_teacher := v } = detectRowKey r := rfl

theorem writeFirst_as_setSubstituteAt (c : Change) (v : String) :
    ∀ s : List PRow,
      writeFirst c v s =
        match findRowIdx s c with
        | some i => setSubstituteAt s i v
        | none => s := by
  intro s
  induction s with
  | nil => rfl
  | cons r rs ih =>
    by_cases hm : changeKeyMatches r c = true
    · simp [writeFirst, findRowIdx, hm, setSubstituteAt]
    · rw [writeFirst, if_neg hm, findRowIdx, if_neg hm, ih]
      cases hf : findRowIdx rs c with
      | none => simp
      | some i => simp [setSubstituteAt]

theorem findRowIdx_set (c : Change) (v : String) :
    ∀ (s : List PRow) (i : Nat),
      findRowIdx (setSubstituteAt s i v) c = findRowIdx s c := by
  intro s
  induction s with
  | nil => intro i; cases i <;> rfl
  | cons r rs ih =>
    intro i
    cases i with
    | zero => simp [setSubstituteAt, findRowIdx, changeKeyMatches_set]
    | succ i => simp [setSubstituteAt, findRowIdx, ih i]

theorem updateTargets_set (C : List Change) (i : Nat) (v : String)
    (s : List PRow) :
    updateTargets (setSubstituteAt s i v) C = updateTargets s C := by
  simp [updateTargets, findRowIdx_set]

theorem update_pending_sheet_nil (s : List PRow) :
    update_pending_sheet s [] = s := rfl

theorem update_pending_sheet_cons (s : List PRow) (c : Change)
    (C : List Change) :
    update_pending_sheet s (c :: C) =
      update_pending_sheet (writeFirst c c.new_substitute s) C := by
  rw [writeFirst_as_setSubstituteAt]
  cases hf : findRowIdx s c with
  | none =>
    simp only [update_pending_sheet, updateTargets, List.filterMap_cons, hf,
      Option.map_none']
  | some i =>
    simp only [update_pending_sheet, updateTargets, List.filterMap_cons, hf,
      Option.map_some', List.foldl_cons]
    simp only [findRowIdx_set]

theorem writeFirst_map_key (c : Change) (v : String) :
    ∀ s : List PRow,
      (writeFirst c v s).map detectRowKey = s.map detectRowKey := by
  intro s
  induction s with
  | nil => rfl
  | cons r rs ih =>
    by_cases hm : changeKeyMatches r c = true
    · simp [writeFirst, hm, detectRowKey_set]
    · simp [writeFirst, hm, ih]

theorem writeFirst_map_period (c : Change) (v : String) :
    ∀ s : List PRow,
      (writeFirst c v s).map (fun r => r.period) =
        s.map (fun r => r.period) := by
  intro s
  induction s with
  | nil => rfl
  | cons r rs ih =>
    by_cases hm : changeKeyMatches r c = true
    · simp [writeFirst, hm]
    · simp [writeFirst, hm, ih]

theorem digits_transport (s' s : List PRow)
    (he : s'.map (fun r => r.period) = s.map (fun r => r.period))
    (h : ∀ r ∈ s, pyIsDigit r.period = true) :
    ∀ r ∈ s', pyIsDigit r.period = true := by
  intro r hr
  have hm : r.period ∈ s.map (fun r => r.period) := by
    rw [← he]; exact List.mem_map_of_mem _ hr
  obtain ⟨r0, hr0, hp⟩ := List.mem_map.mp hm
  rw [← hp]
  exact h r0 hr0

theorem update_sheet_map_key :
    ∀ (C : List Change) (s : List PRow),
      (update_pending_sheet s C).map detectRowKey = s.map detectRowKey := by
  intro C
  induction C with
  | nil => intro s; rfl
  | cons c C ih =>
    intro s
    rw [update_pending_sheet_cons, ih, writeFirst_map_key]

theorem update_sheet_map_period :
    ∀ (C : List Change) (s : List PRow),
      (update_pending_sheet s C).map (fun r => r.period) =
        s.map (fun r => r.period) := by
  intro C
  induction C with
  | nil => intro s; rfl
  | cons c C ih =>
    intro s
    rw [update_pending_sheet_cons, ih, writeFirst_map_period]

theorem find?_append_match (p : PRow → Bool) :
    ∀ l1 l2 : List PRow,
      (l1 ++ l2).find? p =
        match l1.find? p with
        | some x => some x
        | none => l2.find? p := by
  intro l1 l2
  rw [List.find?_append]
  cases h : l1.find? p <;> rfl

theorem pendingLookup_eq_find (s : List PRow)
    (hN : (s.map detectRowKey).Nodup) (k : String × String × String × Int) :
    pendingLookup s k = s.find? (fun r => detectRowKey r == k) := by
  induction s with
  | nil => rfl
  | cons r rs ih =>
    rw [List.map_cons, List.nodup_cons] at hN
    show ((r :: rs).reverse.find? fun r => detectRowKey r == k) = _
    rw [List.reverse_cons, find?_append_match]
    by_cases hk : detectRowKey r = k
    · have hnone :
          rs.reverse.find? (fun r => detectRowKey r == k) = none := by
        rw [List.find?_eq_none]
        intro x hx
        simp only [beq_iff_eq]
        intro hxk
        exact hN.1 (by
          rw [hk, ← hxk]
          exact List.mem_map_of_mem _ (List.mem_reverse.mp hx))
      rw [hnone]
      show List.find? (fun r => detectRowKey r == k) [r] = _
      rw [List.find?_cons_of_pos _ (by simp [hk]),
        List.find?_cons_of_pos _ (by simp [hk])]
    · have hpf : ¬ ((fun r => detectRowKey r == k) r = true) := by
        simp [hk]
      have hsing : [r].find? (fun r => detectRowKey r == k) = none := by
        rw [@List.find?_cons_of_neg _ (fun r => detectRowKey r == k) r []
          hpf]
        rfl
      rw [hsing, @List.find?_cons_of_neg _ (fun r => detectRowKey r == k) r
        rs hpf, ← ih hN.2]
      show (match rs.reverse.find? (fun r => detectRowKey r == k) with
            | some x => some x
            | none => none) =
          rs.reverse.find? (fun r => detectRowKey r == k)
      cases rs.reverse.find? (fun r => detectRowKey r == k) <;> rfl

theorem find?_uniqueMem {α : Type} (p : α → Bool) (a : α) :
    ∀ l : List α, a ∈ l → p a = true →
      (∀ b ∈ l, p b = true → b = a) → l.find? p = some a := by
  intro l
  induction l with
  | nil => intro h; exact absurd h (List.not_mem_nil a)
  | cons c cs ih =>
    intro hmem hpa huniq
    by_cases hc : p c = true
    · rw [List.find?_cons_of_pos _ hc]
      exact congrArg some (huniq c (List.mem_cons_self c cs) hc)
    · rw [List.find?_cons_of_neg _ hc]
      have hacs : a ∈ cs := by
        rcases List.mem_cons.mp hmem with h | h
        · exact absurd (h ▸ hpa) hc
        · exact h
      exact ih hacs hpa (fun b hb => huniq b (List.mem_cons_of_mem c hb))

theorem find?_writeFirst (c : Change) (v : String)
    (k : String × String × String × Int) :
    ∀ s : List PRow, (∀ r ∈ s, pyIsDigit r.period = true) →
      (writeFirst c v s).find? (fun r => detectRowKey r == k) =
        if ukey c = k then
          (s.find? (fun r => detectRowKey r == k)).map
            (fun r => { r with substitute_teacher := v })
        else s.find? (fun r => detectRowKey r == k) := by
  intro s
  induction s with
  | nil =>
    intro _
    by_cases hk : ukey c = k <;> simp [writeFirst, hk]
  | cons r rs ih =>
    intro hD
    have hDr := hD r (List.mem_cons_self r rs)
    have hDt : ∀ x ∈ rs, pyIsDigit x.period = true :=
      fun x hx => hD x (List.mem_cons_of_mem r hx)
    by_cases hm : changeKeyMatches r c = true
    · have hkey : detectRowKey r = ukey c :=
        (changeKeyMatches_iff r c hDr).mp hm
      by_cases hk : ukey c = k
      · rw [if_pos hk]
        simp [writeFirst, hm, List.find?_cons, detectRowKey_set, hkey, hk]
      · rw [if_neg hk]
        have hpf : (detectRowKey r == k) = false := by
          simp [hkey, hk]
        simp [writeFirst, hm, List.find?_cons, detectRowKey_set, hkey, hk]
    · have hkey : detectRowKey r ≠ ukey c :=
        fun he => hm ((changeKeyMatches_iff r c hDr).mpr he)
      by_cases hp : detectRowKey r = k
      · have hk : ¬ ukey c = k := fun he => hkey (hp.trans he.symm)
        rw [if_neg hk]
        simp [writeFirst, hm, List.find?_cons, hp]
      · rw [writeFirst, if_neg hm]
        have hpf : (detectRowKey r == k) = false := by simp [hp]
        rw [List.find?_cons, hpf]
        simp only [Bool.false_eq_true, if_neg]
        rw [ih hDt]
        by_cases hk : ukey c = k
        · rw [if_pos hk, if_pos hk, List.find?_cons, hpf]
        · rw [if_neg hk, if_neg hk, List.find?_cons, hpf]

theorem find?_update_sheet (k : String × String × String × Int) :
    ∀ (C : List Change) (s : List PRow),
      (∀ r ∈ s, pyIsDigit r.period = true) → (C.map ukey).Nodup →
      (update_pending_sheet s C).find? (fun r => detectRowKey r == k) =
        match C.find? (fun u => ukey u == k) with
        | some u => (s.find? (fun r => detectRowKey r == k)).map
            (fun r => { r with substitute_teacher := u.new_substitute })
        | none => s.find? (fun r => detectRowKey r == k) := by
  intro C
  induction C with
  | nil => intro s _ _; rfl
  | cons c C ih =>
    intro s hD hUK
    rw [List.map_cons, List.nodup_cons] at hUK
    have hD2 : ∀ r ∈ writeFirst c c.new_substitute s,
        pyIsDigit r.period = true :=
      digits_transport _ _ (writeFirst_map_period c c.new_substitute s) hD
    rw [update_pending_sheet_cons,
      ih (writeFirst c c.new_substitute s) hD2 hUK.2]
    by_cases hk : ukey c = k
    · have hCnone : C.find? (fun u => ukey u == k) = none := by
        rw [List.find?_eq_none]
        intro u hu
        simp only [beq_iff_eq]
        intro he
        exact hUK.1 (by rw [hk, ← he]; exact List.mem_map_of_mem _ hu)
      have hhead : (c :: C).find? (fun u => ukey u == k) = some c :=
        List.find?_cons_of_pos _ (by simp [hk])
      rw [hCnone, hhead, find?_writeFirst c c.new_substitute k s hD,
        if_pos hk]
    · have hhead : (c :: C).find? (fun u => ukey u == k) =
          C.find? (fun u => ukey u == k) :=
        @List.find?_cons_of_neg _ (fun u => ukey u == k) c C (by simp [hk])
      rw [hhead, find?_writeFirst c c.new_substitute k s hD, if_neg hk]

theorem pendingLookup_update (s : List PRow) (C : List Change)
    (k : String × String × String × Int)
    (hN : (s.map detectRowKey).Nodup)
    (hD : ∀ r ∈ s, pyIsDigit r.period = true)
    (hUK : (C.map ukey).Nodup) :
    pendingLookup (update_pending_sheet s C) k =
      match C.find? (fun u => ukey u == k) with
      | some u => (pendingLookup s k).map
          (fun r => { r with substitute_teacher := u.new_substitute })
      | none => pendingLookup s k := by
  have hN2 : ((update_pending_sheet s C).map detectRowKey).Nodup := by
    rw [update_sheet_map_key]; exact hN
  rw [pendingLookup_eq_find _ hN2, pendingLookup_eq_find s hN]
  exact find?_update_sheet k C s hD hUK

theorem update_pending_assignments_fst (s : List PRow) (C : List Change) :
    (update_pending_assignments s C).1 = update_pending_sheet s C := by
  simp only [update_pending_assignments]
  by_cases he : (updateTargets s C).isEmpty = true
  · rw [if_pos he]
    show s = update_pending_sheet s C
    rw [update_pending_sheet, List.isEmpty_iff.mp he, List.foldl_nil]
  · rw [if_neg he]

theorem classifyOne_eq (ratio : String → String → Rat)
    (aiMatch : Option (String → Option (String × Rat)))
    (nameMap : List (String × String)) (th : Rat) (td : String)
    (lookup : String × String × String × Int → Option PRow) (p : Parsed) :
    classifyOne ratio aiMatch nameMap th td lookup p =
      match (match_teacher_name_to_id ratio aiMatch p.absent_teacher_name
        nameMap).1 with
      | none => .err ⟨p.absent_teacher_name, mkContext p⟩
      | some a =>
        if a == "" then .err ⟨p.absent_teacher_name, mkContext p⟩
        else
          match lookup (td, a, p.day, p.period) with
          | none => .notFound ⟨p, a, (subMatch ratio aiMatch nameMap p).1⟩
          | some pend =>
            if (subMatch ratio aiMatch nameMap p).2.2 == "ai_fuzzy" &&
                decide (mkRat 60 100 ≤
                  (subMatch ratio aiMatch nameMap p).2.1) &&
                decide ((subMatch ratio aiMatch nameMap p).2.1 < th) then
              .ai ⟨td, a, p.day, p.period, p.class_id, p.subject_thai,
                (p.substitute_teacher_name).getD "",
                (subMatch ratio aiMatch nameMap p).1,
                (subMatch ratio aiMatch nameMap p).2.1,
                pend.substitute_teacher⟩
            else if !(optEqStr (subMatch ratio aiMatch nameMap p).1
                pend.substitute_teacher) then
              .upd ⟨td, a, p.day, p.period, p.class_id, p.subject_thai,
                pend.substitute_teacher,
                pyOrNotFound (subMatch ratio aiMatch nameMap p).1,
                (subMatch ratio aiMatch nameMap p).2.1,
                (subMatch ratio aiMatch nameMap p).2.2⟩
            else
              .unch ⟨td, a, p.day, p.period, p.class_id, p.subject_thai,
                (subMatch ratio aiMatch nameMap p).1⟩ := rfl

theorem classifyOne_congr (ratio : String → String → Rat)
    (aiMatch : Option (String → Option (String × Rat)))
    (nameMap : List (String × String)) (th : Rat) (td : String)
    (lookup1 lookup2 : String × String × String × Int → Option PRow)
    (p : Parsed)
    (h : ∀ k, resolvedKey ratio aiMatch nameMap td p = some k →
      lookup1 k = lookup2 k) :
    classifyOne ratio aiMatch nameMap th td lookup1 p =
      classifyOne ratio aiMatch nameMap th td lookup2 p := by
  rw [classifyOne_eq, classifyOne_eq]
  cases ham : (match_teacher_name_to_id ratio aiMatch p.absent_teacher_name
      nameMap).1 with
  | none => simp only [ham]
  | some a =>
    simp only [ham]
    by_cases ha : (a == "") = true
    · rw [if_pos ha, if_pos ha]
    · have hk : resolvedKey ratio aiMatch nameMap td p =
          some (td, a, p.day, p.period) := by
        simp [resolvedKey, ham, ha]
      rw [if_neg ha, if_neg ha, h _ hk]

theorem classifyOne_upd_inv (ratio : String → String → Rat)
    (aiMatch : Option (String → Option (String × Rat)))
    (nameMap : List (String × String)) (th : Rat) (td : String)
    (lookup : String × String × String × Int → Option PRow) (p : Parsed)
    (u : Change)
    (hupd : classifyOne ratio aiMatch nameMap th td lookup p = .upd u) :
    ∃ a pend,
      (match_teacher_name_to_id ratio aiMatch p.absent_teacher_name
        nameMap).1 = some a ∧
      (a == "") = false ∧
      lookup (td, a, p.day, p.period) = some pend ∧
      ((subMatch ratio aiMatch nameMap p).2.2 == "ai_fuzzy" &&
        decide (mkRat 60 100 ≤ (subMatch ratio aiMatch nameMap p).2.1) &&
        decide ((subMatch ratio aiMatch nameMap p).2.1 < th)) = false ∧
      optEqStr (subMatch ratio aiMatch nameMap p).1
        pend.substitute_teacher = false ∧
      u = ⟨td, a, p.day, p.period, p.class_id, p.subject_thai,
        pend.substitute_teacher,
        pyOrNotFound (subMatch ratio aiMatch nameMap p).1,
        (subMatch ratio aiMatch nameMap p).2.1,
        (subMatch ratio aiMatch nameMap p).2.2⟩ := by
  rw [classifyOne_eq] at hupd
  cases ham : (match_teacher_name_to_id ratio aiMatch p.absent_teacher_name
      nameMap).1 with
  | none =>
    simp only [ham] at hupd
    exact absurd hupd (by simp)
  | some a =>
    simp only [ham] at hupd
    by_cases ha : (a == "") = true
    · rw [if_pos ha] at hupd
      exact absurd hupd (by simp)
    · rw [if_neg ha] at hupd
      cases hl : lookup (td, a, p.day, p.period) with
      | none =>
        simp only [hl] at hupd
        exact absurd hupd (by simp)
      | some pend =>
        simp only [hl] at hupd
        by_cases hai : ((subMatch ratio aiMatch nameMap p).2.2 ==
            "ai_fuzzy" &&
            decide (mkRat 60 100 ≤ (subMatch ratio aiMatch nameMap p).2.1)
            && decide ((subMatch ratio aiMatch nameMap p).2.1 < th)) = true
        · rw [if_pos hai] at hupd
          exact absurd hupd (by simp)
        · rw [if_neg hai] at hupd
          by_cases hcmp : optEqStr (subMatch ratio aiMatch nameMap p).1
              pend.substitute_teacher = true
          · rw [if_neg (by simp [hcmp])] at hupd
            exact absurd hupd (by simp)
          · have hcmp2 : optEqStr (subMatch ratio aiMatch nameMap p).1
                pend.substitute_teacher = false := by
              simpa using hcmp
            rw [if_pos (by simp [hcmp2])] at hupd
            simp only [Classified.upd.injEq] at hupd
            exact ⟨a, pend, rfl, by simpa using ha, hl,
              by simpa using hai, hcmp2, hupd.symm⟩

theorem detectGo_updated_mem (ratio : String → String → Rat)
    (aiMatch : Option (String → Option (String × Rat)))
    (nameMap : List (String × String)) (th : Rat) (td : String)
    (lookup : String × String × String × Int → Option PRow) :
    ∀ (ps : List Parsed) (u : Change),
      u ∈ (detectGo ratio aiMatch nameMap th td lookup ps).updated ↔
        ∃ p ∈ ps,
          classifyOne ratio aiMatch nameMap th td lookup p = .upd u := by
  intro ps
  induction ps with
  | nil => intro u; simp [detectGo]
  | cons p ps ih =>
    intro u
    cases hc : classifyOne ratio aiMatch nameMap th td lookup p with
    | upd u2 =>
      simp only [detectGo, hc]
      rw [List.mem_cons, ih u, List.exists_mem_cons_iff]
      constructor
      · rintro (rfl | h)
        · exact Or.inl hc
        · exact Or.inr h
      · rintro (h | h)
        · rw [hc] at h
          exact Or.inl (((Classified.upd.injEq _ _).mp h).symm)
        · exact Or.inr h
    | err e =>
      simp [detectGo, hc, ih, or_and_right, exists_or, exists_eq_left,
        exists_eq_left']
    | notFound n =>
      simp [detectGo, hc, ih, or_and_right, exists_or, exists_eq_left,
        exists_eq_left']
    | ai a =>
      simp [detectGo, hc, ih, or_and_right, exists_or, exists_eq_left,
        exists_eq_left']
    | unch c =>
      simp [detectGo, hc, ih, or_and_right, exists_or, exists_eq_left,
        exists_eq_left']

theorem detectGo_unchanged_mem (ratio : String → String → Rat)
    (aiMatch : Option (String → Option (String × Rat)))
    (nameMap : List (String × String)) (th : Rat) (td : String)
    (lookup : String × String × String × Int → Option PRow) :
    ∀ (ps : List Parsed) (c : UnchangedEntry),
      c ∈ (detectGo ratio aiMatch nameMap th td lookup ps).unchanged ↔
        ∃ p ∈ ps,
          classifyOne ratio aiMatch nameMap th td lookup p = .unch c := by
  intro ps
  induction ps with
  | nil => intro c; simp [detectGo]
  | cons p ps ih =>
    intro c
    cases hc : classifyOne ratio aiMatch nameMap th td lookup p with
    | unch c2 =>
      simp only [detectGo, hc]
      rw [List.mem_cons, ih c, List.exists_mem_cons_iff]
      constructor
      · rintro (rfl | h)
        · exact Or.inl hc
        · exact Or.inr h
      · rintro (h | h)
        · rw [hc] at h
          exact Or.inl (((Classified.unch.injEq _ _).mp h).symm)
        · exact Or.inr h
    | err e =>
      simp [detectGo, hc, ih, or_and_right, exists_or, exists_eq_left,
        exists_eq_left']
    | notFound n =>
      simp [detectGo, hc, ih, or_and_right, exists_or, exists_eq_left,
        exists_eq_left']
    | ai a =>
      simp [detectGo, hc, ih, or_and_right, exists_or, exists_eq_left,
        exists_eq_left']
    | upd u =>
      simp [detectGo, hc, ih, or_and_right, exists_or, exists_eq_left,
        exists_eq_left']

theorem classifyOne_upd_key (ratio : String → String → Rat)
    (aiMatch : Option (String → Option (String × Rat)))
    (nameMap : List (String × String)) (th : Rat) (td : String)
    (lookup : String × String × String × Int → Option PRow) (p : Parsed)
    (u : Change)
    (hupd : classifyOne ratio aiMatch nameMap th td lookup p = .upd u) :
    resolvedKey ratio aiMatch nameMap td p = some (ukey u) := by
  obtain ⟨a, pend, ham, ha, hl, hai, hcmp, hu⟩ :=
    classifyOne_upd_inv ratio aiMatch nameMap th td lookup p u hupd
  rw [hu]
  simp [resolvedKey, ham, ha, ukey]

theorem detectGo_updated_keys_nodup (ratio : String → String → Rat)
    (aiMatch : Option (String → Option (String × Rat)))
    (nameMap : List (String × String)) (th : Rat) (td : String)
    (lookup : String × String × String × Int → Option PRow) :
    ∀ ps : List Parsed,
      ps.Pairwise (fun p q => ∀ k,
        resolvedKey ratio aiMatch nameMap td p = some k →
        resolvedKey ratio aiMatch nameMap td q ≠ some k) →
      (((detectGo ratio aiMatch nameMap th td lookup ps).updated).map
        ukey).Nodup := by
  intro ps
  induction ps with
  | nil => intro _; simp [detectGo]
  | cons p ps ih =>
    intro hP
    rw [List.pairwise_cons] at hP
    cases hc : classifyOne ratio aiMatch nameMap th td lookup p with
    | upd u =>
      simp only [detectGo, hc]
      rw [List.map_cons, List.nodup_cons]
      refine ⟨?_, ih hP.2⟩
      intro hmem
      obtain ⟨u2, hu2mem, hkeq⟩ := List.mem_map.mp hmem
      obtain ⟨q, hq, hq2⟩ :=
        (detectGo_updated_mem ratio aiMatch nameMap th td lookup ps
          u2).mp hu2mem
      have hkp := classifyOne_upd_key ratio aiMatch nameMap th td lookup p
        u hc
      have hkq := classifyOne_upd_key ratio aiMatch nameMap th td lookup q
        u2 hq2
      rw [hkeq] at hkq
      exact hP.1 q hq (ukey u) hkp hkq
    | err e =>
      simp only [detectGo, hc]
      exact ih hP.2
    | notFound n =>
      simp only [detectGo, hc]
      exact ih hP.2
    | ai a =>
      simp only [detectGo, hc]
      exact ih hP.2
    | unch c =>
      simp only [detectGo, hc]
      exact ih hP.2

theorem resolvedKey_symm :
    ∀ (ratio : String → String → Rat)
      (aiMatch : Option (String → Option (String × Rat)))
      (nameMap : List (String × String)) (td : String),
      Symmetric (fun p q : Parsed => ∀ k,
        resolvedKey ratio aiMatch nameMap td p = some k →
        resolvedKey ratio aiMatch nameMap td q ≠ some k) := by
  intro ratio aiMatch nameMap td x y hxy k hky hkx
  exact hxy k hkx hky

theorem classify_nonupd_stable (ratio : String → String → Rat)
    (aiMatch : Option (String → Option (String × Rat)))
    (nameMap : List (String × String)) (th : Rat) (td : String)
    (parsed : List Parsed) (pending : List PRow)
    (hN : (pending.map detectRowKey).Nodup)
    (hD : ∀ r ∈ pending, pyIsDigit r.period = true)
    (hK : parsed.Pairwise (fun p q => ∀ k,
      resolvedKey ratio aiMatch nameMap td p = some k →
      resolvedKey ratio aiMatch nameMap td q ≠ some k))
    (p : Parsed) (hp : p ∈ parsed)
    (hnu : ∀ w, classifyOne ratio aiMatch nameMap th td
      (pendingLookup pending) p ≠ .upd w) :
    classifyOne ratio aiMatch nameMap th td
      (pendingLookup (update_pending_sheet pending
        (detectGo ratio aiMatch nameMap th td (pendingLookup pending)
          parsed).updated)) p =
      classifyOne ratio aiMatch nameMap th td (pendingLookup pending) p := by
  have hUK := detectGo_updated_keys_nodup ratio aiMatch nameMap th td
    (pendingLookup pending) parsed hK
  apply classifyOne_congr
  intro k hk
  rw [pendingLookup_update pending _ k hN hD hUK]
  have hfind : (detectGo ratio aiMatch nameMap th td
      (pendingLookup pending) parsed).updated.find?
      (fun u => ukey u == k) = none := by
    rw [List.find?_eq_none]
    intro u hu
    simp only [beq_iff_eq]
    intro hku
    obtain ⟨q, hq, hq2⟩ :=
      (detectGo_updated_mem ratio aiMatch nameMap th td
        (pendingLookup pending) parsed u).mp hu
    have hkq := classifyOne_upd_key ratio aiMatch nameMap th td
      (pendingLookup pending) q u hq2
    rw [hku] at hkq
    have hne : p ≠ q := fun he => hnu u (he.symm ▸ hq2)
    exact (List.Pairwise.forall
      (resolvedKey_symm ratio aiMatch nameMap td) hK hp hq hne) k hk hkq
  rw [hfind]

theorem classify_upd_becomes_unch (ratio : String → String → Rat)
    (aiMatch : Option (String → Option (String × Rat)))
    (nameMap : List (String × String)) (th : Rat) (td : String)
    (parsed : List Parsed) (pending : List PRow)
    (hN : (pending.map detectRowKey).Nodup)
    (hD : ∀ r ∈ pending, pyIsDigit r.period = true)
    (hK : parsed.Pairwise (fun p q => ∀ k,
      resolvedKey ratio aiMatch nameMap td p = some k →
      resolvedKey ratio aiMatch nameMap td q ≠ some k))
    (p : Parsed) (hp : p ∈ parsed) (u : Change)
    (hc : classifyOne ratio aiMatch nameMap th td
      (pendingLookup pending) p = .upd u)
    (hnf : u.new_substitute ≠ "Not Found") :
    classifyOne ratio aiMatch nameMap th td
      (pendingLookup (update_pending_sheet pending
        (detectGo ratio aiMatch nameMap th td (pendingLookup pending)
          parsed).updated)) p =
      .unch ⟨u.date, u.absent_teacher, u.day, u.period, u.class_id,
        u.subject, some u.new_substitute⟩ := by
  have hUK := detectGo_updated_keys_nodup ratio aiMatch nameMap th td
    (pendingLookup pending) parsed hK
  have hforall := List.Pairwise.forall
    (resolvedKey_symm ratio aiMatch nameMap td) hK
  obtain ⟨a, pend, ham, ha, hl, hai, hcmp, hu⟩ :=
    classifyOne_upd_inv ratio aiMatch nameMap th td
      (pendingLookup pending) p u hc
  have huU : u ∈ (detectGo ratio aiMatch nameMap th td
      (pendingLookup pending) parsed).updated :=
    (detectGo_updated_mem ratio aiMatch nameMap th td
      (pendingLookup pending) parsed u).mpr ⟨p, hp, hc⟩
  have hkey : ukey u = (td, a, p.day, p.period) := by rw [hu]; rfl
  have hfind : (detectGo ratio aiMatch nameMap th td
      (pendingLookup pending) parsed).updated.find?
      (fun v => ukey v == (td, a, p.day, p.period)) = some u := by
    apply find?_uniqueMem _ u _ huU (by rw [hkey]; simp)
    intro v hv hveq
    simp only [beq_iff_eq] at hveq
    obtain ⟨q, hq, hq2⟩ :=
      (detectGo_updated_mem ratio aiMatch nameMap th td
        (pendingLookup pending) parsed v).mp hv
    have hkq := classifyOne_upd_key ratio aiMatch nameMap th td
      (pendingLookup pending) q v hq2
    rw [hveq] at hkq
    have hkp := classifyOne_upd_key ratio aiMatch nameMap th td
      (pendingLookup pending) p u hc
    rw [hkey] at hkp
    by_cases he : p = q
    · rw [← he] at hq2
      rw [hc] at hq2
      exact (((Classified.upd.injEq _ _).mp hq2)).symm
    · exact absurd hkq ((hforall hp hq he) _ hkp)
  have hl2 : pendingLookup (update_pending_sheet pending
      (detectGo ratio aiMatch nameMap th td (pendingLookup pending)
        parsed).updated) (td, a, p.day, p.period) =
      some { pend with substitute_teacher := u.new_substitute } := by
    rw [pendingLookup_update pending _ _ hN hD hUK]
    simp only [hfind]
    rw [hl]
    rfl
  cases hsm : (subMatch ratio aiMatch nameMap p).1 with
  | none =>
    exfalso
    apply hnf
    rw [hu]
    show pyOrNotFound (subMatch ratio aiMatch nameMap p).1 = "Not Found"
    rw [hsm]
    rfl
  | some v =>
    by_cases hv : (v == "") = true
    · exfalso
      apply hnf
      rw [hu]
      show pyOrNotFound (subMatch ratio aiMatch nameMap p).1 = "Not Found"
      rw [hsm]
      simp [pyOrNotFound, hv]
    · have hnew : u.new_substitute = v := by
        rw [hu]
        show pyOrNotFound (subMatch ratio aiMatch nameMap p).1 = v
        rw [hsm]
        simp [pyOrNotFound, hv]
      have hdate : u.date = td := by rw [hu]
      have habs : u.absent_teacher = a := by rw [hu]
      have hday : u.day = p.day := by rw [hu]
      have hper : u.period = p.period := by rw [hu]
      have hcls : u.class_id = p.class_id := by rw [hu]
      have hsub : u.subject = p.subject_thai := by rw [hu]
      rw [classifyOne_eq]
      simp only [ham]
      rw [if_neg (by simp [ha])]
      simp only [hl2]
      rw [if_neg (by simp [hai])]
      rw [if_neg (by simp [optEqStr, hsm, hnew])]
      rw [hdate, habs, hday, hper, hcls, hsub, hnew, hsm]

/-- C4 (amended): reconciliation is idempotent on the resolvable part.
Assume the pending sheet has pairwise-distinct composite keys and digit
Period cells, the parsed assignments resolve to pairwise-distinct
composite keys, and every entry of the first run's updated list carries a
real substitute id (new_substitute is not the "Not Found" marker).  Then
after applying the first run's updates to the pending sheet via
update_pending_assignments, a second run of detect_assignment_changes on
the same parsed report yields an empty updated list, and every entry of
the first run's updated list is classified as unchanged (with its new
substitute) by the second run.  Without the "Not Found" proviso the claim
is false: see the unresolved-substitute counterexample. -/
theorem detect_reconcile_idempotent (ratio : String → String → Rat)
    (aiMatch : Option (String → Option (String × Rat)))
    (td : String) (parsed : List Parsed) (pending : List PRow)
    (nameMap : List (String × String)) (th : Rat)
    (hN : (pending.map detectRowKey).Nodup)
    (hD : ∀ r ∈ pending, pyIsDigit r.period = true)
    (hK : parsed.Pairwise (fun p q => ∀ k,
      resolvedKey ratio aiMatch nameMap td p = some k →
      resolvedKey ratio aiMatch nameMap td q ≠ some k))
    (hNF : ∀ u ∈ (detect_assignment_changes ratio aiMatch td parsed pending
      nameMap th).updated, u.new_substitute ≠ "Not Found") :
    (detect_assignment_changes ratio aiMatch td parsed
      (update_pending_assignments pending
        (detect_assignment_changes ratio aiMatch td parsed pending nameMap
          th).updated).1 nameMap th).updated = [] ∧
    ∀ u ∈ (detect_assignment_changes ratio aiMatch td parsed pending
      nameMap th).updated,
      (⟨u.date, u.absent_teacher, u.day, u.period, u.class_id, u.subject,
        some u.new_substitute⟩ : UnchangedEntry) ∈
        (detect_assignment_changes ratio aiMatch td parsed
          (update_pending_assignments pending
            (detect_assignment_changes ratio aiMatch td parsed pending
              nameMap th).updated).1 nameMap th).unchanged := by
  have hdet : ∀ pe : List PRow,
      detect_assignment_changes ratio aiMatch td parsed pe nameMap th =
        detectGo ratio aiMatch nameMap th td (pendingLookup pe) parsed :=
    fun _ => rfl
  simp only [hdet, update_pending_assignments_fst] at hNF ⊢
  constructor
  · rw [List.eq_nil_iff_forall_not_mem]
    intro u hu
    obtain ⟨p, hp, hp2⟩ :=
      (detectGo_updated_mem ratio aiMatch nameMap th td
        (pendingLookup (update_pending_sheet pending
          (detectGo ratio aiMatch nameMap th td (pendingLookup pending)
            parsed).updated)) parsed u).mp hu
    by_cases hupdcase : ∃ v, classifyOne ratio aiMatch nameMap th td
      (pendingLookup pending) p = .upd v
    · obtain ⟨v, hv⟩ := hupdcase
      have hnfv : v.new_substitute ≠ "Not Found" :=
        hNF v ((detectGo_updated_mem ratio aiMatch nameMap th td
          (pendingLookup pending) parsed v).mpr ⟨p, hp, hv⟩)
      rw [classify_upd_becomes_unch ratio aiMatch nameMap th td parsed
        pending hN hD hK p hp v hv hnfv] at hp2
      exact absurd hp2 (by simp)
    · push_neg at hupdcase
      rw [classify_nonupd_stable ratio aiMatch nameMap th td parsed pending
        hN hD hK p hp hupdcase] at hp2
      exact hupdcase u hp2
  · intro u hu
    obtain ⟨p, hp, hc⟩ :=
      (detectGo_updated_mem ratio aiMatch nameMap th td
        (pendingLookup pending) parsed u).mp hu
    exact (detectGo_unchanged_mem ratio aiMatch nameMap th td
      (pendingLookup (update_pending_sheet pending
        (detectGo ratio aiMatch nameMap th td (pendingLookup pending)
          parsed).updated)) parsed _).mpr
      ⟨p, hp, classify_upd_becomes_unch ratio aiMatch nameMap th td parsed
        pending hN hD hK p hp u hc (hNF u hu)⟩

/-- C4 counterexample: when a parsed assignment's substitute name does not
resolve, the first run records an update with new_substitute set to the
"Not Found" marker, update_pending_assignments writes that marker into the
sheet, and the second run compares the unresolved substitute (None)
against the marker string again - unequal - so the same entry is updated
again instead of becoming unchanged.  Reconciliation is therefore not
idempotent as claimed. -/
theorem detect_unresolved_substitute_reupdated :
    (detect_assignment_changes (fun _ _ => 0) none "2025-01-01"
      [⟨"ก", "C1", "ครูเอ", none, "จันทร์", 1⟩]
      [⟨"2025-01-01", "T001", "จันทร์", "1", "C1", "ก", "T017", "", "", "",
        "pending"⟩]
      [("ครูเอ", "T001")] (mkRat 85 100)).updated.map
        (fun u => (u.old_substitute, u.new_substitute)) =
      [("T017", "Not Found")] ∧
    (detect_assignment_changes (fun _ _ => 0) none "2025-01-01"
      [⟨"ก", "C1", "ครูเอ", none, "จันทร์", 1⟩]
      (update_pending_assignments
        [⟨"2025-01-01", "T001", "จันทร์", "1", "C1", "ก", "T017", "", "",
          "", "pending"⟩]
        (detect_assignment_changes (fun _ _ => 0) none "2025-01-01"
          [⟨"ก", "C1", "ครูเอ", none, "จันทร์", 1⟩]
          [⟨"2025-01-01", "T001", "จันทร์", "1", "C1", "ก", "T017", "", "",
            "", "pending"⟩]
          [("ครูเอ", "T001")] (mkRat 85 100)).updated).1
      [("ครูเอ", "T001")] (mkRat 85 100)).updated.map
        (fun u => (u.old_substitute, u.new_substitute)) =
      [("Not Found", "Not Found")] := by
  exact ⟨by decide, by decide⟩

theorem detect_reconcile_idempotent_witness :
    (([(⟨"2025-01-01", "T001", "จันทร์", "1", "C1", "ก", "T002", "", "",
        "", "pending"⟩ : PRow)].map detectRowKey).Nodup) ∧
    (∀ u ∈ (detect_assignment_changes (fun _ _ => 0) none "2025-01-01"
        [⟨"ก", "C1", "ครูเอ", some "ครูบี", "จันทร์", 1⟩]
        [⟨"2025-01-01", "T001", "จันทร์", "1", "C1", "ก", "T002", "", "",
          "", "pending"⟩]
        [("ครูเอ", "T001"), ("ครูบี", "T017")] (mkRat 85 100)).updated,
      u.new_substitute ≠ "Not Found") ∧
    ((detect_assignment_changes (fun _ _ => 0) none "2025-01-01"
      [⟨"ก", "C1", "ครูเอ", some "ครูบี", "จันทร์", 1⟩]
      (update_pending_assignments
        [⟨"2025-01-01", "T001", "จันทร์", "1", "C1", "ก", "T002", "", "",
          "", "pending"⟩]
        (detect_assignment_changes (fun _ _ => 0) none "2025-01-01"
          [⟨"ก", "C1", "ครูเอ", some "ครูบี", "จันทร์", 1⟩]
          [⟨"2025-01-01", "T001", "จันทร์", "1", "C1", "ก", "T002", "", "",
            "", "pending"⟩]
          [("ครูเอ", "T001"), ("ครูบี", "T017")] (mkRat 85 100)).updated).1
      [("ครูเอ", "T001"), ("ครูบี", "T017")] (mkRat 85 100)).updated = [] ∧
    ∀ u ∈ (detect_assignment_changes (fun _ _ => 0) none "2025-01-01"
        [⟨"ก", "C1", "ครูเอ", some "ครูบี", "จันทร์", 1⟩]
        [⟨"2025-01-01", "T001", "จันทร์", "1", "C1", "ก", "T002", "", "",
          "", "pending"⟩]
        [("ครูเอ", "T001"), ("ครูบี", "T017")] (mkRat 85 100)).updated,
      (⟨u.date, u.absent_teacher, u.day, u.period, u.class_id, u.subject,
        some u.new_substitute⟩ : UnchangedEntry) ∈
        (detect_assignment_changes (fun _ _ => 0) none "2025-01-01"
          [⟨"ก", "C1", "ครูเอ", some "ครูบี", "จันทร์", 1⟩]
          (update_pending_assignments
            [⟨"2025-01-01", "T001", "จันทร์", "1", "C1", "ก", "T002", "",
              "", "", "pending"⟩]
            (detect_assignment_changes (fun _ _ => 0) none "2025-01-01"
              [⟨"ก", "C1", "ครูเอ", some "ครูบี", "จันทร์", 1⟩]
              [⟨"2025-01-01", "T001", "จันทร์", "1", "C1", "ก", "T002", "",
                "", "", "pending"⟩]
              [("ครูเอ", "T001"), ("ครูบี", "T017")]
              (mkRat 85 100)).updated).1
          [("ครูเอ", "T001"), ("ครูบี", "T017")]
          (mkRat 85 100)).unchanged) :=
  ⟨by decide, by decide,
   detect_reconcile_idempotent (fun _ _ => 0) none "2025-01-01"
     [⟨"ก", "C1", "ครูเอ", some "ครูบี", "จันทร์", 1⟩]
     [⟨"2025-01-01", "T001", "จันทร์", "1", "C1", "ก", "T002", "", "", "",
       "pending"⟩]
     [("ครูเอ", "T001"), ("ครูบี", "T017")] (mkRat 85 100)
     (by decide) (by decide) (by simp) (by decide)⟩

end TTC
